import Mathlib

/-! # Mini-Trello frontend: task and card stores, push handlers

A shallow embedding of `src/utils/store.js` (the zustand card and task stores),
of the `task_*` / `card_*` handlers of `src/hooks/useRealTimeUpdates.js`, and of
the move intent of `src/pages/BoardView.jsx`.

JavaScript objects are association lists from property names to values; the
object spread, property reads, `||`, `===` and the array methods `find`, `map`,
`filter`, `sort` are modelled one to one.  A remote call is modelled by its
outcome (the response body, or the failure with its optional message), which is
an argument of the operation that awaits it.
-/

namespace MiniTrello

/-! ## JavaScript values and objects -/

/-- A JavaScript value as the stores see it.  Numbers are the integers
(positions are integers; `NaN` and fractions are not represented).  An array or
a nested object is a reference `ref a`: the stores copy such values around but
never look inside them, `===` on them is identity, and they are always truthy
(the empty array included). -/
inductive Val where
  | undefined : Val
  | null : Val
  | bool (b : Bool) : Val
  | num (n : Int) : Val
  | str (s : String) : Val
  | ref (a : Nat) : Val
  deriving DecidableEq, Repr

/-- JavaScript truthiness: `undefined`, `null`, `false`, `0` and `''` are falsy. -/
def Val.truthy : Val → Bool
  | .undefined => false
  | .null => false
  | .bool b => b
  | .num n => n != 0
  | .str s => s != ""
  | .ref _ => true

/-- The expression `a || b`. -/
def Val.or (a b : Val) : Val := if a.truthy then a else b

/-- The expression `a === b` (no `NaN` in the model, so it is equality). -/
def Val.strictEq (a b : Val) : Bool := a == b

/-- A JavaScript object: its own properties in insertion order. -/
abbrev Obj := List (String × Val)

/-- Whether `k` is an own property of `o` (`k in o`). -/
def Obj.has : Obj → String → Bool
  | [], _ => false
  | (k', _) :: rest, k => k' == k || Obj.has rest k

/-- The property read `o.k`: `undefined` when `o` has no such property.  When a
name is written twice the later one counts, as in an object literal. -/
def Obj.get : Obj → String → Val
  | [], _ => .undefined
  | (k', v) :: rest, k =>
    if Obj.has rest k then Obj.get rest k else if k' = k then v else .undefined

/-- The assignment `o.k = v`, also one `k: v` item of an object literal: an
existing property keeps its place and takes the new value, a new one is added
at the end. -/
def Obj.set (o : Obj) (k : String) (v : Val) : Obj :=
  if o.has k then o.map (fun p => if p.1 = k then (k, v) else p) else o ++ [(k, v)]

/-- The spread `{ ...a, ...b }`: every own property of `b` is written over `a`. -/
def Obj.spread (a b : Obj) : Obj := b.foldl (fun acc p => acc.set p.1 p.2) a

/-! ## Store states -/

/-- State of `useTaskStore`. -/
structure TaskState where
  tasks : List Obj
  loading : Bool
  error : Val
  deriving DecidableEq, Repr

/-- State of `useCardStore`. -/
structure CardState where
  cards : List Obj
  loading : Bool
  error : Val
  deriving DecidableEq, Repr

/-- The two stores a board view works on. -/
structure Stores where
  card : CardState
  task : TaskState
  deriving DecidableEq, Repr

/-- Outcome of a remote call: the response body `response.data`, or a failure
carrying `error.response?.data?.message` (`undefined` when there is none). -/
inductive Remote (α : Type) where
  | ok (data : α) : Remote α
  | fail (message : Val) : Remote α
  deriving Repr

/-! ## `useCardStore` (src/utils/store.js) -/

/-- The `set({ loading: true, error: null })` every remote card action starts with. -/
def CardState.start (s : CardState) : CardState := { s with loading := true, error := .null }

/-- The action `fetchCards(boardId)`, given the outcome of `cardsAPI.getCards`: the response's
card array (empty when the body holds none) replaces the list. -/
def fetchCards (s : CardState) (r : Remote (List Obj)) : CardState :=
  match r with
  | .ok cards => { s.start with cards := cards, loading := false }
  | .fail m => { s.start with error := m.or (.str "Failed to fetch lists"), loading := false }

/-- The action `createCard(cardData)`, given the outcome of `cardsAPI.createCard`. -/
def createCard (s : CardState) (r : Remote Obj) : CardState :=
  match r with
  | .ok newCard => { s.start with cards := s.start.cards ++ [newCard], loading := false }
  | .fail m => { s.start with error := m.or (.str "Failed to create card"), loading := false }

/-- The action `deleteCard(boardId, id)`, given the outcome of `cardsAPI.deleteCard`. -/
def deleteCard (s : CardState) (id : Val) (r : Remote Unit) : CardState :=
  match r with
  | .ok _ =>
    { s.start with
      cards := s.start.cards.filter (fun card => !(card.get "id").strictEq id),
      loading := false }
  | .fail m => { s.start with error := m.or (.str "Failed to delete card"), loading := false }

/-- The mutator `updateCardDirect(cardId, updatedCard)`: the payload is spread over
every card with the identifier. -/
def updateCardDirect (s : CardState) (cardId : Val) (updatedCard : Obj) : CardState :=
  { s with
    cards := s.cards.map (fun card =>
      if (card.get "id").strictEq cardId then card.spread updatedCard else card) }

/-- The mutator `addCard(newCard)`: the card is appended. -/
def addCard (s : CardState) (newCard : Obj) : CardState :=
  { s with cards := s.cards ++ [newCard] }

/-- The mutator `removeCard(cardId)`: the cards with the identifier are dropped. -/
def removeCard (s : CardState) (cardId : Val) : CardState :=
  { s with cards := s.cards.filter (fun card => !(card.get "id").strictEq cardId) }

/-! ## `useTaskStore` (src/utils/store.js) -/

/-- The operand `a.position || 0` of the sort comparator. -/
def positionOr0 (t : Obj) : Val := (t.get "position").or (.num 0)

/-- The number a comparator operand stands for.  Exact on numbers, which is what
`positionOr0` yields for a task whose position is a number or is missing; other
operands are outside the data model and read as `0` here. -/
def Val.toInt : Val → Int
  | .num n => n
  | _ => 0

/-- The comparator `(a, b) => (a.position || 0) - (b.position || 0)`. -/
def comparePosition (a b : Obj) : Int := (positionOr0 a).toInt - (positionOr0 b).toInt

/-- Insertion of `a` into a list ordered by `cmp`, before the first element it
does not come after (`cmp a b ≤ 0`). -/
def insertBy {α : Type} (cmp : α → α → Int) (a : α) : List α → List α
  | [] => [a]
  | b :: l => if cmp a b ≤ 0 then a :: b :: l else b :: insertBy cmp a l

/-- The method `Array.prototype.sort(cmp)`: a stable sort (ECMAScript 2019 on); an element
moves behind another only when the comparator says it comes after it. -/
def jsSort {α : Type} (cmp : α → α → Int) : List α → List α
  | [] => []
  | a :: l => insertBy cmp a (jsSort cmp l)

/-- The array `getTasksForCard(cardId)` returns, as a function of the task list read by `get()`. -/
def tasksForCard (tasks : List Obj) (cardId : Val) : List Obj :=
  jsSort comparePosition (tasks.filter (fun task => (task.get "cardId").strictEq cardId))

/-- The selector `getTasksForCard(cardId)`: the returned array, and the store state when it
returns.  `filter` builds a fresh array and `sort` works in place on that one. -/
def getTasksForCard (s : TaskState) (cardId : Val) : List Obj × TaskState :=
  (tasksForCard s.tasks cardId, s)

/-- The `set({ loading: true, error: null })` every remote task action starts with. -/
def TaskState.start (s : TaskState) : TaskState := { s with loading := true, error := .null }

/-- The action `fetchTasks(cardId, boardId)`, given the outcome of `tasksAPI.getTasks`. -/
def fetchTasks (s : TaskState) (cardId : Val) (r : Remote (List Obj)) : TaskState :=
  match r with
  | .ok newTasks =>
    { s.start with
      tasks := s.start.tasks.filter (fun task => !(task.get "cardId").strictEq cardId) ++ newTasks,
      loading := false }
  | .fail m => { s.start with error := m.or (.str "Failed to fetch tasks"), loading := false }

/-- The action `createTask(taskData)`, given the outcome of `tasksAPI.createTask`. -/
def createTask (s : TaskState) (r : Remote Obj) : TaskState :=
  match r with
  | .ok newTask => { s.start with tasks := s.start.tasks ++ [newTask], loading := false }
  | .fail m => { s.start with error := m.or (.str "Failed to create task"), loading := false }

/-- The response body after `updatedTask.cardId = taskData.targetCardId`, which
runs when a target card is given and differs from the `cardId` argument. -/
def overrideCardId (cardId : Val) (taskData updatedTask : Obj) : Obj :=
  if (taskData.get "targetCardId").truthy && !(taskData.get "targetCardId").strictEq cardId then
    updatedTask.set "cardId" (taskData.get "targetCardId")
  else updatedTask

/-- The object `finalTask` that `updateTask` builds when the task is in the store:
`{ ...existingTask, ...updatedTask, assignedTo: updatedTask.assignedTo ||
existingTask.assignedTo, ... }`. -/
def mergeResponse (existingTask updatedTask : Obj) : Obj :=
  ((((((existingTask.spread updatedTask).set "assignedTo"
      ((updatedTask.get "assignedTo").or (existingTask.get "assignedTo"))).set "dueDate"
      ((updatedTask.get "dueDate").or (existingTask.get "dueDate"))).set "priority"
      ((updatedTask.get "priority").or (existingTask.get "priority"))).set "labels"
      ((updatedTask.get "labels").or (existingTask.get "labels"))).set "attachments"
      ((updatedTask.get "attachments").or (existingTask.get "attachments"))).set
      "githubAttachments"
      ((updatedTask.get "githubAttachments").or (existingTask.get "githubAttachments"))

/-- The state update of `updateTask` on a successful response (the `set` callback
of lines 294-327), run on the state `s` the store has when the response arrives. -/
def updateTaskConfirmed (s : TaskState) (cardId taskId : Val) (taskData response : Obj) :
    TaskState :=
  let updatedTask := overrideCardId cardId taskData response
  let finalTask :=
    match s.tasks.find? (fun t => (t.get "id").strictEq taskId) with
    | some existingTask => mergeResponse existingTask updatedTask
    | none => updatedTask
  { s with
    tasks := s.tasks.map (fun task => if (task.get "id").strictEq taskId then finalTask else task),
    loading := false }

/-- The `catch` of `updateTask`, run on the state the store has when the call fails. -/
def updateTaskFailed (s : TaskState) (m : Val) : TaskState :=
  { s with error := m.or (.str "Failed to update task"), loading := false }

/-- The action `updateTask(boardId, cardId, taskId, taskData)`, given the outcome of
`tasksAPI.updateTask`, with nothing else touching the store in between. -/
def updateTask (s : TaskState) (_boardId cardId taskId : Val) (taskData : Obj) (r : Remote Obj) :
    TaskState :=
  match r with
  | .ok response => updateTaskConfirmed s.start cardId taskId taskData response
  | .fail m => updateTaskFailed s.start m

/-- The request body `moveTask` builds from the stored task. -/
def moveTaskData (task : Obj) (targetCardId newPosition : Val) : Obj :=
  [("targetCardId", targetCardId), ("position", newPosition), ("title", task.get "title"),
   ("description", task.get "description"), ("dueDate", task.get "dueDate"),
   ("completed", task.get "completed")]

/-- The action `moveTask(boardId, taskId, targetCardId, newPosition)`, given the outcome of the
`updateTask` call it makes.  A task that is not in the store, and a failed call,
end in the `catch` that records `'Failed to move task'` or the server's message. -/
def moveTask (s : TaskState) (boardId taskId targetCardId newPosition : Val) (r : Remote Obj) :
    TaskState :=
  match s.tasks.find? (fun t => (t.get "id").strictEq taskId) with
  | none => { s with error := Val.undefined.or (.str "Failed to move task") }
  | some task =>
    let s1 := updateTask s boardId (task.get "cardId") taskId
      (moveTaskData task targetCardId newPosition) r
    match r with
    | .ok _ => s1
    | .fail m => { s1 with error := m.or (.str "Failed to move task") }

/-- The action `deleteTask(boardId, cardId, taskId)`, given the outcome of `tasksAPI.deleteTask`. -/
def deleteTask (s : TaskState) (taskId : Val) (r : Remote Unit) : TaskState :=
  match r with
  | .ok _ =>
    { s.start with
      tasks := s.start.tasks.filter (fun task => !(task.get "id").strictEq taskId),
      loading := false }
  | .fail m => { s.start with error := m.or (.str "Failed to delete task"), loading := false }

/-- The mutator `updateTaskDirect(taskId, updatedTask)`: every task with the
identifier is replaced by `updatedTask`. -/
def updateTaskDirect (s : TaskState) (taskId : Val) (updatedTask : Obj) : TaskState :=
  { s with
    tasks := s.tasks.map (fun task => if (task.get "id").strictEq taskId then updatedTask else task) }

/-- The mutator `addTask(newTask)`: the task is appended. -/
def addTask (s : TaskState) (newTask : Obj) : TaskState :=
  { s with tasks := s.tasks ++ [newTask] }

/-- The mutator `removeTask(taskId)`: the tasks with the identifier are dropped. -/
def removeTask (s : TaskState) (taskId : Val) : TaskState :=
  { s with tasks := s.tasks.filter (fun task => !(task.get "id").strictEq taskId) }

/-! ## Push handlers (src/hooks/useRealTimeUpdates.js) -/

/-- What the handlers of one run of the effect close over: the `boardId` of the
view, the signed-in `user` (`none` when there is none) and `cards`, the card list
`useCardStore()` returned at the render that ran the effect.  The store may hold
another list by the time an event arrives: the effect runs again only after the
next render. -/
structure Hook where
  boardId : Val
  user : Option Obj
  cards : List Obj
  deriving Repr

/-- Payload of a `task_created` / `task_updated` event: `data.boardId` and the
object `data.task` (`none` when the payload carries no task). -/
structure TaskEvent where
  boardId : Val
  task : Option Obj
  deriving Repr

/-- The guard `boardId && data.boardId === boardId` every board handler opens with. -/
def Hook.forBoard (h : Hook) (eventBoardId : Val) : Bool :=
  h.boardId.truthy && eventBoardId.strictEq h.boardId

/-- The expression `user?.uid || user?.id`. -/
def Hook.currentUserId (h : Hook) : Val :=
  match h.user with
  | some u => (u.get "uid").or (u.get "id")
  | none => .undefined

/-- The `card_created` handler. -/
def onCardCreated (h : Hook) (st : Stores) (newCard : Obj) : Stores :=
  if h.forBoard (newCard.get "boardId") then
    if !(h.currentUserId.strictEq ((newCard.get "createdBy").or (newCard.get "ownerId"))) then
      { st with card := addCard st.card newCard }
    else st
  else st

/-- The `card_deleted` handler. -/
def onCardDeleted (h : Hook) (st : Stores) (data : Obj) : Stores :=
  if h.forBoard (data.get "boardId") then
    { st with card := removeCard st.card (data.get "cardId") }
  else st

/-- The `card_moved` handler. -/
def onCardMoved (h : Hook) (st : Stores) (updatedCard : Obj) : Stores :=
  if h.forBoard (updatedCard.get "boardId") then
    { st with card := updateCardDirect st.card (updatedCard.get "id") updatedCard }
  else st

/-- The `task_created` handler; `refetch` is the outcome of the `fetchCards` call
made when the payload carries no task. -/
def onTaskCreated (h : Hook) (st : Stores) (data : TaskEvent) (refetch : Remote (List Obj)) :
    Stores :=
  if h.forBoard data.boardId then
    match data.task with
    | some task => { st with task := addTask st.task task }
    | none => { st with card := fetchCards st.card refetch }
  else st

/-- The object `mergedTask` of the `task_updated` handler: `{ ...existingTask,
...data.task, assignedTo: data.task.assignedTo !== undefined ? data.task.assignedTo
: existingTask.assignedTo, ... }`. -/
def mergePush (existingTask task : Obj) : Obj :=
  let pick (k : String) : Val :=
    if task.get k != .undefined then task.get k else existingTask.get k
  ((((((existingTask.spread task).set "assignedTo" (pick "assignedTo")).set "dueDate"
      (pick "dueDate")).set "priority" (pick "priority")).set "labels" (pick "labels")).set
      "attachments" (pick "attachments")).set "githubAttachments" (pick "githubAttachments")

/-- The `task_updated` handler. -/
def onTaskUpdated (h : Hook) (st : Stores) (data : TaskEvent) : Stores :=
  if h.forBoard data.boardId then
    match data.task with
    | some task =>
      if (task.get "id").truthy then
        let taskId := task.get "id"
        match st.task.tasks.find? (fun t => (t.get "id").strictEq taskId) with
        | some existingTask =>
          { st with task := updateTaskDirect st.task taskId (mergePush existingTask task) }
        | none => { st with task := updateTaskDirect st.task taskId task }
      else st
    | none => st
  else st

/-- A card deletion the local user asked for (`handleDeleteCard` awaiting
`deleteCard`): only the card store is written. -/
def deleteCardConfirmed (st : Stores) (id : Val) : Stores :=
  { st with card := deleteCard st.card id (.ok ()) }

/-! ## Store properties -/

/-- No two entities of the list share an identifier. -/
def UniqueIds (l : List Obj) : Prop :=
  l.Pairwise (fun a b => a.get "id" ≠ b.get "id")

instance (l : List Obj) : Decidable (UniqueIds l) := by
  unfold UniqueIds; infer_instance

/-- The integer a task is ordered by: its position, `0` when it has none. -/
def posKey (t : Obj) : Int := (positionOr0 t).toInt

/-- Whether a value is a number. -/
def Val.isNum : Val → Bool
  | .num _ => true
  | _ => false

/-- The task's position is a number, or is missing (or otherwise falsy) and so
counts as `0`: the comparator operand `position || 0` is a number. -/
def NumericPosition (t : Obj) : Prop := (positionOr0 t).isNum = true

instance (t : Obj) : Decidable (NumericPosition t) := by
  unfold NumericPosition; infer_instance

/-- No two tasks of one card have the same position (a missing position counting
as `0`). -/
def DistinctPositions (l : List Obj) : Prop :=
  l.Pairwise (fun a b => a.get "cardId" = b.get "cardId" → positionOr0 a ≠ positionOr0 b)

instance (l : List Obj) : Decidable (DistinctPositions l) := by
  unfold DistinctPositions; infer_instance

/-! ## Sample data -/

/-- The stored task of the spec's scenario. -/
def taskT1 : Obj :=
  [("id", .str "t1"), ("cardId", .str "c1"), ("title", .str "Fix bug"),
   ("priority", .str "high"), ("position", .num 2)]

/-- The `task_updated` payload of the spec's scenario. -/
def deltaT1 : Obj := [("id", .str "t1"), ("cardId", .str "c2"), ("position", .num 0)]

/-- A board view on board `b1` with user `u1` signed in, rendered while the card
store held no card. -/
def hookB1 : Hook := { boardId := .str "b1", user := some [("uid", .str "u1")], cards := [] }

/-- Stores holding no card and the single task `taskT1`. -/
def storesT1 : Stores :=
  { card := { cards := [], loading := false, error := .null },
    task := { tasks := [taskT1], loading := false, error := .null } }

/-- The card `c1` of board `b1`. -/
def cardC1 : Obj :=
  [("id", .str "c1"), ("boardId", .str "b1"), ("name", .str "To do"), ("position", .num 0)]

/-- Stores holding the card `c1` and its task `taskT1`. -/
def storesC1 : Stores :=
  { card := { cards := [cardC1], loading := false, error := .null },
    task := { tasks := [taskT1], loading := false, error := .null } }

/-- The `card_deleted` payload for card `c1` of board `b1`. -/
def cardDeletedC1 : Obj :=
  [("cardId", .str "c1"), ("boardId", .str "b1"), ("deletedBy", .str "u2")]

/-- The task the server answers `createTask` with, also the task of the
`task_created` push that follows. -/
def taskT2 : Obj :=
  [("id", .str "t2"), ("cardId", .str "c1"), ("boardId", .str "b1"), ("title", .str "Write docs"),
   ("priority", .str "medium"), ("position", .num 3), ("createdBy", .str "u1")]

/-- A `task_updated` payload for a task the store does not hold. -/
def taskT9 : Obj :=
  [("id", .str "t9"), ("cardId", .str "c1"), ("title", .str "Review"), ("position", .num 4)]

/-- A stored task with a due date. -/
def taskDue : Obj :=
  [("id", .str "t1"), ("cardId", .str "c1"), ("title", .str "Fix bug"),
   ("priority", .str "high"), ("dueDate", .str "2024-01-01T00:00:00.000Z")]

/-- The request of the task dialog when the due date is cleared. -/
def clearDueRequest : Obj :=
  [("title", .str "Fix bug"), ("priority", .str "high"), ("dueDate", .null)]

/-- The server's answer to `clearDueRequest`. -/
def clearDueResponse : Obj :=
  [("id", .str "t1"), ("cardId", .str "c1"), ("title", .str "Fix bug"),
   ("priority", .str "high"), ("dueDate", .null)]

/-- Card `B` already holds `u1` at position 0; `t1` sits in card `c1`. -/
def tasksTwoCards : TaskState :=
  { tasks :=
      [[("id", .str "u1"), ("cardId", .str "c2"), ("title", .str "Deploy"), ("position", .num 0)],
       taskT1],
    loading := false, error := .null }

/-- The server's answer to moving `t1` to card `c2` at position 0. -/
def movedT1 : Obj :=
  [("id", .str "t1"), ("cardId", .str "c2"), ("title", .str "Fix bug"),
   ("priority", .str "high"), ("position", .num 0)]

/-- Card `c1` holds three tasks, stored in the order `t3`, `tb`, `ta`; `tb` and
`ta` share position 1, `t3` has position 0. -/
def tasksTies : TaskState :=
  { tasks :=
      [[("id", .str "b"), ("cardId", .str "c1"), ("title", .str "Second"), ("position", .num 1)],
       [("id", .str "x"), ("cardId", .str "c2"), ("title", .str "Elsewhere"), ("position", .num 5)],
       [("id", .str "a"), ("cardId", .str "c1"), ("title", .str "Third"), ("position", .num 1)],
       [("id", .str "t3"), ("cardId", .str "c1"), ("title", .str "First")]],
    loading := false, error := .null }

/-- A task of card `c2` at position 2. -/
def taskV1 : Obj :=
  [("id", .str "v1"), ("cardId", .str "c2"), ("title", .str "Plan"), ("position", .num 2)]

/-- A task of card `c2` without a position. -/
def taskW1 : Obj := [("id", .str "w1"), ("cardId", .str "c2"), ("title", .str "Ship")]

/-- The store `[v1, t1, w1]`: `t1` is in card `c1`, the others in card `c2`. -/
def tasksFront : TaskState :=
  { tasks := [taskV1, taskT1, taskW1], loading := false, error := .null }

/-! ## The `card_updated` handler and the rendered columns -/

/-- The `card_updated` handler; `refetch` is the outcome of the `fetchCards` call
made when the card is not found.  The card is looked up in `cards`, the list the
hook closed over, not in the list the store holds when the event arrives. -/
def onCardUpdated (h : Hook) (st : Stores) (updatedCard : Obj) (refetch : Remote (List Obj)) :
    Stores :=
  if h.forBoard (updatedCard.get "boardId") then
    match h.cards.find? (fun c => (c.get "id").strictEq (updatedCard.get "id")) with
    | some _ => { st with card := updateCardDirect st.card (updatedCard.get "id") updatedCard }
    | none => { st with card := fetchCards st.card refetch }
  else st

/-- The `card` props of the columns `BoardColumns` renders, left to right:
`cards.map((card, index) => <BoardColumn card={card} ... />)`. -/
def boardColumns (cards : List Obj) : List Obj := cards.map (fun card => card)

/-- The cards are held in ascending order of position (a missing position counting
as `0`). -/
def CardsAscending (l : List Obj) : Prop := l.Pairwise (fun a b => posKey a ≤ posKey b)

instance (l : List Obj) : Decidable (CardsAscending l) := by
  unfold CardsAscending; infer_instance

/-! ## Equality of stored entities, field by field -/

/-- Two objects hold the same value for every property name: every read `o.k`
gives the same result (a property holding `undefined` reads like a missing one). -/
def Obj.Same (a b : Obj) : Prop := ∀ k : String, a.get k = b.get k

/-- Two lists hold as many entities, and the entities agree place by place. -/
def SameEntities (l1 l2 : List Obj) : Prop := List.Forall₂ Obj.Same l1 l2

/-! ## Drag and drop (TaskCard.jsx, BoardColumns.jsx, BoardView.jsx) -/

/-- The drag item of a `TaskCard`. -/
def dragItem (task : Obj) : Obj :=
  [("type", .str "task"), ("id", (task.get "id").or (task.get "_id")),
   ("taskId", (task.get "id").or (task.get "_id")), ("cardId", task.get "cardId"),
   ("title", task.get "title"), ("sourceCardId", task.get "cardId"),
   ("position", (task.get "position").or (.num 0))]

/-- The `drop` callback of the column of `card`: the drop result, if any. -/
def columnDrop (s : TaskState) (card item : Obj) : Option Obj :=
  if (item.get "type").strictEq (.str "task") then
    some [("cardId", card.get "id"), ("type", .str "task-drop"),
          ("position", .num (getTasksForCard s (card.get "id")).1.length)]
  else if (item.get "type").strictEq (.str "card") then
    some [("cardId", card.get "id"), ("type", .str "card-drop")]
  else none

/-- A move intent: the arguments `(taskId, sourceCardId, targetCardId, newPosition)`
of `onTaskMove` / `handleTaskMove`. -/
structure MoveIntent where
  taskId : Val
  sourceCardId : Val
  targetCardId : Val
  newPosition : Val
  deriving DecidableEq, Repr

/-- The `end` callback of the drag: the `onTaskMove` call it makes, if any. -/
def dragEnd (item : Obj) (dropResult : Option Obj) : Option MoveIntent :=
  match dropResult with
  | some d =>
    if (d.get "type").strictEq (.str "task-drop") then
      some { taskId := item.get "taskId", sourceCardId := item.get "sourceCardId",
             targetCardId := d.get "cardId",
             newPosition :=
               if d.get "position" != .undefined then d.get "position" else item.get "position" }
    else none
  | none => none

/-- The arguments of one `tasksAPI.updateTask(boardId, cardId, taskId, taskData)`
call. -/
structure UpdateRequest where
  boardId : Val
  cardId : Val
  taskId : Val
  taskData : Obj
  deriving DecidableEq, Repr

/-- The remote call `moveTask` leads to: none when the task is not in the store
(`moveTask` throws before calling `updateTask`). -/
def moveTaskRequest (s : TaskState) (boardId taskId targetCardId newPosition : Val) :
    Option UpdateRequest :=
  match s.tasks.find? (fun t => (t.get "id").strictEq taskId) with
  | none => none
  | some task =>
    some { boardId := boardId, cardId := task.get "cardId", taskId := taskId,
           taskData := moveTaskData task targetCardId newPosition }

/-- The value of `calculatedPosition` in `handleTaskMove`. -/
def calculatedPosition (s : TaskState) (targetCardId newPosition : Val) : Val :=
  if newPosition == .undefined then .num (getTasksForCard s targetCardId).1.length
  else newPosition

/-- The remote call `handleTaskMove` leads to, if any. -/
def handleTaskMoveRequest (s : TaskState) (boardId : Val) (m : MoveIntent) :
    Option UpdateRequest :=
  if !m.taskId.truthy then none
  else
    match (getTasksForCard s m.sourceCardId).1.find? (fun t => (t.get "id").strictEq m.taskId) with
    | some _ =>
      moveTaskRequest s boardId m.taskId m.targetCardId
        (calculatedPosition s m.targetCardId m.newPosition)
    | none => none

/-- The task store after `handleTaskMove`, given the outcome of the remote call it
may make. -/
def handleTaskMove (s : TaskState) (boardId : Val) (m : MoveIntent) (r : Remote Obj) :
    TaskState :=
  if !m.taskId.truthy then s
  else
    match (getTasksForCard s m.sourceCardId).1.find? (fun t => (t.get "id").strictEq m.taskId) with
    | some _ =>
      moveTask s boardId m.taskId m.targetCardId
        (calculatedPosition s m.targetCardId m.newPosition) r
    | none => s

/-- The remote call a drop of `task` on the column of `card` leads to: `drop`,
then `end`, then `handleTaskMove`. -/
def dropRequest (s : TaskState) (boardId : Val) (task card : Obj) : Option UpdateRequest :=
  match dragEnd (dragItem task) (columnDrop s card (dragItem task)) with
  | some m => handleTaskMoveRequest s boardId m
  | none => none

/-! ## The store while a task mutation is pending -/

/-- The task store between the call of `updateTask` and the arrival of the
response: only `set({ loading: true, error: null })` has run. -/
def updateTaskPending (s : TaskState) (_boardId _cardId _taskId : Val) (_taskData : Obj) :
    TaskState :=
  s.start

/-- The task store between the call of `moveTask` and the arrival of the response
of the `updateTask` call it makes; none when the task is not in the store. -/
def moveTaskPending (s : TaskState) (boardId taskId targetCardId newPosition : Val) :
    Option TaskState :=
  match s.tasks.find? (fun t => (t.get "id").strictEq taskId) with
  | none => none
  | some task =>
    some (updateTaskPending s boardId (task.get "cardId") taskId
      (moveTaskData task targetCardId newPosition))

/-! ## More sample data -/

/-- The card `c2` of board `b1`. -/
def cardC2 : Obj :=
  [("id", .str "c2"), ("boardId", .str "b1"), ("name", .str "Doing"), ("position", .num 1)]

/-- Stores whose cards `c1` (position 0) and `c2` (position 1) are in position
order. -/
def storesTwoCards : Stores :=
  { card := { cards := [cardC1, cardC2], loading := false, error := .null },
    task := tasksTwoCards }

/-- A `card_moved` payload: card `c1` now has position 2. -/
def cardMovedC1 : Obj := [("id", .str "c1"), ("boardId", .str "b1"), ("position", .num 2)]

/-- The board view on `b1`, rendered while the card store held `c1` and `c2`. -/
def hookTwoCards : Hook := { hookB1 with cards := [cardC1, cardC2] }

/-- A task with identifier `t1`, titled 'A'. -/
def dupA : Obj :=
  [("id", .str "t1"), ("cardId", .str "c1"), ("title", .str "A"), ("position", .num 0)]

/-- Another task with the same identifier `t1`, titled 'B'. -/
def dupB : Obj :=
  [("id", .str "t1"), ("cardId", .str "c1"), ("title", .str "B"), ("position", .num 1)]

/-- Stores whose task list holds the identifier `t1` twice, as after a confirmed
`createTask` followed by the `task_created` push of the same task. -/
def storesDup : Stores :=
  { card := { cards := [cardC1], loading := false, error := .null },
    task := { tasks := [dupA, dupB], loading := false, error := .null } }

/-- A second card with the identifier `c1`. -/
def dupC1 : Obj :=
  [("id", .str "c1"), ("boardId", .str "b1"), ("name", .str "Copy"), ("position", .num 5)]

/-- The server's answer to moving `t1` within card `c1` to position 0. -/
def movedWithinC1 : Obj :=
  [("id", .str "t1"), ("cardId", .str "c1"), ("title", .str "Fix bug"),
   ("priority", .str "high"), ("position", .num 0)]

/-- The request of the task dialog that renames `t1`. -/
def renameRequest : Obj := [("title", .str "Fix login bug"), ("priority", .str "high")]

/-! ## `useBoardStore` and the remaining card actions (src/utils/store.js) -/

/-- State of `useBoardStore`; `currentBoard` is `none` while it is `null` (or was
set to `undefined`). -/
structure BoardState where
  boards : List Obj
  currentBoard : Option Obj
  loading : Bool
  error : Val
  deriving DecidableEq, Repr

/-- The `set({ loading: true, error: null })` every remote board action starts with. -/
def BoardState.start (s : BoardState) : BoardState := { s with loading := true, error := .null }

/-- The action `fetchBoards()`, given the outcome of `boardsAPI.getBoards`: the
response's board array (empty when the body holds none). -/
def fetchBoards (s : BoardState) (r : Remote (List Obj)) : BoardState :=
  match r with
  | .ok boards => { s.start with boards := boards, loading := false }
  | .fail m =>
    { s.start with error := m.or (.str "Failed to fetch boards"), loading := false, boards := [] }

/-- The action `fetchBoardById(id)`, given the outcome of `boardsAPI.getBoardById`:
the `board` of the response body, if it has one. -/
def fetchBoardById (s : BoardState) (r : Remote (Option Obj)) : BoardState :=
  match r with
  | .ok board => { s.start with currentBoard := board, loading := false }
  | .fail m => { s.start with error := m.or (.str "Failed to fetch board"), loading := false }

/-- The action `updateBoard(id, boardData)`, given the outcome of
`boardsAPI.updateBoard`. -/
def updateBoard (s : BoardState) (id : Val) (r : Remote Obj) : BoardState :=
  match r with
  | .ok updatedBoard =>
    { s.start with
      boards := s.start.boards.map (fun board =>
        if (board.get "id").strictEq id then updatedBoard else board),
      currentBoard :=
        match s.start.currentBoard with
        | some current => if (current.get "id").strictEq id then some updatedBoard else some current
        | none => if Val.undefined.strictEq id then some updatedBoard else none,
      loading := false }
  | .fail m => { s.start with error := m.or (.str "Failed to update board"), loading := false }

/-- The action `updateCard(boardId, id, cardData)`, given the outcome of
`cardsAPI.updateCard` (`response.data?.card || response.data`). -/
def updateCard (s : CardState) (id : Val) (r : Remote Obj) : CardState :=
  match r with
  | .ok updatedCard =>
    { s.start with
      cards := s.start.cards.map (fun card =>
        if (card.get "id").strictEq id then updatedCard else card),
      loading := false }
  | .fail m => { s.start with error := m.or (.str "Failed to update card"), loading := false }

/-- The loop body `idx = xs.findIndex(p); if (idx !== -1) xs[idx] = f(xs[idx])`:
the first element that satisfies `p` is replaced. -/
def updateFirst (p : Obj → Bool) (f : Obj → Obj) : List Obj → List Obj
  | [] => []
  | a :: l => if p a then f a :: l else a :: updateFirst p f l

/-- The action `reorderCards(boardId, cardPositions)`, given the outcome of
`cardsAPI.reorderCards`; an entry of `cardPositions` is `{ cardId, position }`. -/
def reorderCards (s : CardState) (cardPositions : List (Val × Val)) (r : Remote Unit) :
    CardState :=
  match r with
  | .ok _ =>
    { s with
      cards := jsSort comparePosition
        (cardPositions.foldl (fun updatedCards e =>
          updateFirst (fun card => (card.get "id").strictEq e.1)
            (fun card => card.set "position" e.2) updatedCards) s.cards) }
  | .fail m => { s with error := m.or (.str "Failed to reorder cards") }

/-- The expression `Array.isArray(response.data) ? response.data : []` of
`fetchTasks`; `none` is a body that is not an array. -/
def responseTasks (data : Option (List Obj)) : List Obj :=
  match data with
  | some newTasks => newTasks
  | none => []

/-! ## The remaining board push handlers (src/hooks/useRealTimeUpdates.js) -/

/-- Payload of a `tasks_reordered` event: `data.boardId`, `data.cardId` and the
array `data.taskPositions` of `{ taskId, position }` entries (`none` when the
payload carries none). -/
structure ReorderEvent where
  boardId : Val
  cardId : Val
  taskPositions : Option (List (Val × Val))
  deriving Repr

/-- The `task_deleted` handler; `refetch` is the outcome of the `fetchCards` call
made when the payload names no task. -/
def onTaskDeleted (h : Hook) (st : Stores) (data : Obj) (refetch : Remote (List Obj)) : Stores :=
  if h.forBoard (data.get "boardId") then
    if (data.get "taskId").truthy then
      { st with task := removeTask st.task (data.get "taskId") }
    else { st with card := fetchCards st.card refetch }
  else st

/-- The `tasks_reordered` handler.  The tasks are looked up in the list read
before the loop; every entry whose task is found there writes
`{ ...task, position }` over the stored tasks of that identifier. -/
def onTasksReordered (h : Hook) (st : Stores) (data : ReorderEvent)
    (refetch : Remote (List Obj)) : Stores :=
  if h.forBoard data.boardId then
    match data.taskPositions with
    | some taskPositions =>
      if data.cardId.truthy then
        { st with
          task := taskPositions.foldl (fun cur e =>
            match st.task.tasks.find? (fun t => (t.get "id").strictEq e.1) with
            | some task => updateTaskDirect cur e.1 (task.set "position" e.2)
            | none => cur) st.task }
      else { st with card := fetchCards st.card refetch }
    | none => { st with card := fetchCards st.card refetch }
  else st

/-- The `cards_reordered` handler. -/
def onCardsReordered (h : Hook) (st : Stores) (data : Obj) (refetch : Remote (List Obj)) :
    Stores :=
  if h.forBoard (data.get "boardId") then { st with card := fetchCards st.card refetch }
  else st

/-- A card or task push event with its payload. -/
inductive PushEvent where
  | cardCreated (newCard : Obj)
  | cardUpdated (updatedCard : Obj)
  | cardDeleted (data : Obj)
  | cardMoved (updatedCard : Obj)
  | taskCreated (data : TaskEvent)
  | taskUpdated (data : TaskEvent)
  | taskDeleted (data : Obj)
  | tasksReordered (data : ReorderEvent)
  | cardsReordered (data : Obj)
  deriving Repr

/-- The board identifier the payload carries. -/
def PushEvent.boardId : PushEvent → Val
  | .cardCreated newCard => newCard.get "boardId"
  | .cardUpdated updatedCard => updatedCard.get "boardId"
  | .cardDeleted data => data.get "boardId"
  | .cardMoved updatedCard => updatedCard.get "boardId"
  | .taskCreated data => data.boardId
  | .taskUpdated data => data.boardId
  | .taskDeleted data => data.get "boardId"
  | .tasksReordered data => data.boardId
  | .cardsReordered data => data.get "boardId"

/-- The stores after the handler of the event has run; `refetch` is the outcome of
the `fetchCards` call the handler may make. -/
def handlePush (h : Hook) (st : Stores) (ev : PushEvent) (refetch : Remote (List Obj)) : Stores :=
  match ev with
  | .cardCreated newCard => onCardCreated h st newCard
  | .cardUpdated updatedCard => onCardUpdated h st updatedCard refetch
  | .cardDeleted data => onCardDeleted h st data
  | .cardMoved updatedCard => onCardMoved h st updatedCard
  | .taskCreated data => onTaskCreated h st data refetch
  | .taskUpdated data => onTaskUpdated h st data
  | .taskDeleted data => onTaskDeleted h st data refetch
  | .tasksReordered data => onTasksReordered h st data refetch
  | .cardsReordered data => onCardsReordered h st data refetch

/-- Whether the handler of the event calls `fetchCards(boardId)`, the only remote
call a card or task handler makes. -/
def startsRefetch (h : Hook) (_st : Stores) (ev : PushEvent) : Bool :=
  match ev with
  | .cardCreated _ => false
  | .cardUpdated updatedCard =>
    h.forBoard (updatedCard.get "boardId") &&
      (h.cards.find? (fun c => (c.get "id").strictEq (updatedCard.get "id"))).isNone
  | .cardDeleted _ => false
  | .cardMoved _ => false
  | .taskCreated data => h.forBoard data.boardId && data.task.isNone
  | .taskUpdated _ => false
  | .taskDeleted data => h.forBoard (data.get "boardId") && !(data.get "taskId").truthy
  | .tasksReordered data =>
    h.forBoard data.boardId && !(data.taskPositions.isSome && data.cardId.truthy)
  | .cardsReordered data => h.forBoard (data.get "boardId")

/-! ## Remote calls and rejections of a move -/

/-- A remote call of the board view. -/
inductive RemoteCall where
  | updateTask (req : UpdateRequest)
  | getTasks (boardId cardId : Val)
  | getCards (boardId : Val)
  deriving DecidableEq, Repr

/-- The remote calls `handleTaskMove` makes, given the outcome of the `updateTask`
call: that call alone.  After a success the move is announced on the socket;
after a failure the `catch` blocks of `updateTask`, `moveTask` and `handleTaskMove`
record and log the error and call nothing. -/
def handleTaskMoveCalls (s : TaskState) (boardId : Val) (m : MoveIntent) (r : Remote Obj) :
    List RemoteCall :=
  match handleTaskMoveRequest s boardId m with
  | none => []
  | some req =>
    match r with
    | .ok _ => [.updateTask req]
    | .fail _ => [.updateTask req]

/-- What a rejected action throws: an `Error` made on the spot, or the rejection
of the remote call with its `error.response?.data?.message`. -/
inductive Failure where
  | error (message : String)
  | remote (message : Val)
  deriving DecidableEq, Repr

/-- The promise of `moveTask`: the task it resolves with (the response body, with
the cardId `updateTask` may have written into it) or what it rejects with. -/
def moveTaskOutcome (s : TaskState) (taskId targetCardId newPosition : Val) (r : Remote Obj) :
    Except Failure Obj :=
  match s.tasks.find? (fun t => (t.get "id").strictEq taskId) with
  | none => .error (.error "Task not found")
  | some task =>
    match r with
    | .ok response =>
      .ok (overrideCardId (task.get "cardId") (moveTaskData task targetCardId newPosition) response)
    | .fail m => .error (.remote m)

/-! ## Reordering, as the payload reads -/

/-- The position the list gives for an identifier: that of the last entry naming
it, if any. -/
def lastPosition (positions : List (Val × Val)) (id : Val) : Option Val :=
  positions.foldl (fun acc e => if e.1.strictEq id then some e.2 else acc) none

/-- An entity after a reordering: with the position the list gives for its
identifier, otherwise as it was. -/
def withListedPosition (positions : List (Val × Val)) (t : Obj) : Obj :=
  match lastPosition positions (t.get "id") with
  | some p => t.set "position" p
  | none => t

/-! ## Sample data for the later sections -/

/-- A board. -/
def boardB1 : Obj := [("id", .str "b1"), ("name", .str "Roadmap"), ("ownerId", .str "u1")]

/-- A board store holding `b1`, also as the current board. -/
def boardsB1 : BoardState :=
  { boards := [boardB1], currentBoard := some boardB1, loading := false, error := .null }

/-- A response to `updateCard` for `c1` that carries the identifier and a new
name only. -/
def renamedC1 : Obj := [("id", .str "c1"), ("name", .str "Backlog")]

/-- A hook mounted for board `b2`. -/
def hookB2 : Hook := { boardId := .str "b2", user := some [("uid", .str "u1")], cards := [] }

/-- A `tasks_reordered` payload for board `b1`: `t1` is listed twice, `zz` is not
stored. -/
def reorderedB1 : ReorderEvent :=
  { boardId := .str "b1", cardId := .str "c9",
    taskPositions := some [(.str "t1", .num 7), (.str "zz", .num 1), (.str "t1", .num 5)] }

/-- A list of card positions that swaps `c1` and `c2` and names an unknown card. -/
def swapCards : List (Val × Val) :=
  [(.str "c1", .num 1), (.str "c2", .num 0), (.str "c7", .num 3)]

/-! ## Objects: reads after writes -/

theorem Obj.map_set_cons (a : String) (b : Val) (rest : Obj) (k : String) (v : Val) :
    List.map (fun p : String × Val => if p.1 = k then (k, v) else p) ((a, b) :: rest)
      = (if a = k then (k, v) else (a, b))
          :: List.map (fun p : String × Val => if p.1 = k then (k, v) else p) rest := rfl

theorem Obj.has_map_set (o : Obj) (k : String) (v : Val) (k' : String) :
    Obj.has (o.map (fun p => if p.1 = k then (k, v) else p)) k' = Obj.has o k' := by
  induction o with
  | nil => rfl
  | cons p rest ih =>
    obtain ⟨a, b⟩ := p
    rw [Obj.map_set_cons]
    by_cases h : a = k
    · rw [if_pos h]; simp only [Obj.has, ih, h]
    · rw [if_neg h]; simp only [Obj.has, ih]

theorem Obj.has_append (o : Obj) (k : String) (v : Val) (k' : String) :
    Obj.has (o ++ [(k, v)]) k' = (Obj.has o k' || k == k') := by
  induction o with
  | nil => simp [Obj.has]
  | cons p rest ih =>
    obtain ⟨a, b⟩ := p
    simp [Obj.has, ih, Bool.or_assoc]

theorem Obj.has_set (o : Obj) (k : String) (v : Val) (k' : String) :
    (o.set k v).has k' = (o.has k' || k == k') := by
  unfold Obj.set
  by_cases h : o.has k = true
  · rw [if_pos h, Obj.has_map_set]
    by_cases hk : k = k'
    · subst hk; simp [h]
    · simp [hk]
  · rw [if_neg h, Obj.has_append]

theorem Obj.get_of_not_has (o : Obj) (k : String) (h : o.has k = false) :
    o.get k = .undefined := by
  induction o with
  | nil => rfl
  | cons p rest ih =>
    obtain ⟨a, b⟩ := p
    simp only [Obj.has, Bool.or_eq_false_iff, beq_eq_false_iff_ne, ne_eq] at h
    simp [Obj.get, h.1, h.2]

theorem Obj.has_of_get_ne (o : Obj) (k : String) (h : o.get k ≠ .undefined) :
    o.has k = true := by
  by_contra hc
  exact h (Obj.get_of_not_has o k (by simpa using hc))

theorem Obj.map_set_of_not_has (o : Obj) (k : String) (v : Val) (h : o.has k = false) :
    o.map (fun p => if p.1 = k then (k, v) else p) = o := by
  induction o with
  | nil => rfl
  | cons p rest ih =>
    obtain ⟨a, b⟩ := p
    simp only [Obj.has, Bool.or_eq_false_iff, beq_eq_false_iff_ne, ne_eq] at h
    rw [Obj.map_set_cons, ih h.2, if_neg h.1]

theorem Obj.get_map_set (o : Obj) (k : String) (v : Val) (k' : String) (h : o.has k = true) :
    Obj.get (o.map (fun p => if p.1 = k then (k, v) else p)) k'
      = if k = k' then v else o.get k' := by
  induction o with
  | nil => simp [Obj.has] at h
  | cons p rest ih =>
    obtain ⟨a, b⟩ := p
    rw [Obj.map_set_cons]
    by_cases hr : Obj.has rest k' = true
    · by_cases hrk : Obj.has rest k = true
      · by_cases hak : a = k
        · rw [if_pos hak]
          simp only [Obj.get, Obj.has_map_set, if_pos hr, ih hrk]
        · rw [if_neg hak]
          simp only [Obj.get, Obj.has_map_set, if_pos hr, ih hrk]
      · have hk : ¬ k = k' := by
          intro hkk; subst hkk; exact hrk hr
        rw [Obj.map_set_of_not_has rest k v (by simpa using hrk)]
        by_cases hak : a = k
        · rw [if_pos hak]
          simp only [Obj.get, if_pos hr, if_neg hk]
        · rw [if_neg hak]
          simp only [Obj.get, if_pos hr, if_neg hk]
    · by_cases hak : a = k
      · subst hak
        rw [if_pos rfl]
        simp only [Obj.get, Obj.has_map_set, if_neg hr]
        by_cases hk : a = k'
        · simp only [if_pos hk]
        · simp only [if_neg hk]
      · rw [if_neg hak]
        simp only [Obj.get, Obj.has_map_set, if_neg hr]
        by_cases hk : k = k'
        · subst hk
          simp only [Obj.has, Bool.or_eq_true, beq_iff_eq] at h
          rcases h with h | h
          · exact absurd h hak
          · exact absurd h hr
        · rw [if_neg hk]

theorem Obj.get_append (o : Obj) (k : String) (v : Val) (k' : String) (h : o.has k = false) :
    Obj.get (o ++ [(k, v)]) k' = if k = k' then v else o.get k' := by
  induction o with
  | nil =>
    by_cases hk : k = k'
    · subst hk; simp [Obj.get, Obj.has]
    · simp [Obj.get, Obj.has, hk]
  | cons p rest ih =>
    obtain ⟨a, b⟩ := p
    simp only [Obj.has, Bool.or_eq_false_iff, beq_eq_false_iff_ne, ne_eq] at h
    have ih' := ih h.2
    have hh := Obj.has_append rest k v k'
    rw [List.cons_append]
    simp only [Obj.get]
    rw [hh, ih']
    by_cases hk : k = k'
    · subst hk; simp
    · have hb : (k == k') = false := by simpa using hk
      simp only [if_neg hk, hb, Bool.or_false]

/-- Reading a property after an assignment. -/
theorem Obj.get_set (o : Obj) (k : String) (v : Val) (k' : String) :
    (o.set k v).get k' = if k = k' then v else o.get k' := by
  unfold Obj.set
  by_cases h : o.has k = true
  · rw [if_pos h, Obj.get_map_set o k v k' h]
  · rw [if_neg h, Obj.get_append o k v k' (by simpa using h)]

/-- Reading a property of a spread: the second operand wins where it has the
property. -/
theorem Obj.get_spread (a b : Obj) (k : String) :
    (a.spread b).get k = if b.has k then b.get k else a.get k := by
  unfold Obj.spread
  induction b generalizing a with
  | nil => simp [Obj.has]
  | cons p rest ih =>
    obtain ⟨c, d⟩ := p
    simp only [List.foldl, ih, Obj.get, Obj.has, Obj.get_set]
    by_cases hr : Obj.has rest k = true
    · simp [hr]
    · by_cases hc : c = k
      · subst hc; simp [hr]
      · simp [hr, hc]

theorem Obj.has_spread (a b : Obj) (k : String) :
    (a.spread b).has k = (a.has k || b.has k) := by
  unfold Obj.spread
  induction b generalizing a with
  | nil => simp [Obj.has]
  | cons p rest ih =>
    obtain ⟨c, d⟩ := p
    simp only [List.foldl, ih, Obj.has, Obj.has_set, Bool.or_assoc]

/-! ## The merge of a pushed task -/

/-- What `mergedTask` holds: for the six listed properties the payload's value
unless it is `undefined`, for every other property the payload's value where the
payload has the property; the stored task's value otherwise. -/
theorem mergePush_get (E D : Obj) (k : String) :
    (mergePush E D).get k =
      if k = "assignedTo" ∨ k = "dueDate" ∨ k = "priority" ∨ k = "labels" ∨ k = "attachments"
          ∨ k = "githubAttachments" then
        (if D.get k ≠ .undefined then D.get k else E.get k)
      else (if D.has k then D.get k else E.get k) := by
  simp only [mergePush, Obj.get_set, Obj.get_spread, @eq_comm _ _ k, ne_eq, bne_iff_ne,
    ite_not]
  split_ifs <;> simp_all

theorem mergePush_get_present (E D : Obj) (k : String) (h : D.get k ≠ .undefined) :
    (mergePush E D).get k = D.get k := by
  rw [mergePush_get]
  have hh := Obj.has_of_get_ne D k h
  split_ifs <;> simp_all

theorem mergePush_get_absent (E D : Obj) (k : String) (h : D.has k = false) :
    (mergePush E D).get k = E.get k := by
  rw [mergePush_get]
  have hh := Obj.get_of_not_has D k h
  split_ifs <;> simp_all

theorem Val.strictEq_iff (a b : Val) : a.strictEq b = true ↔ a = b := by
  simp [Val.strictEq]

theorem Val.ne_undefined_of_truthy (v : Val) (h : v.truthy = true) : v ≠ .undefined := by
  intro hv; subst hv; simp [Val.truthy] at h

/-- The `task_updated` handler on an event for the current board whose task has
an identifier held in the store: every task with that identifier is replaced by
the merge of the first such task with the payload. -/
theorem onTaskUpdated_found (h : Hook) (st : Stores) (b : Val) (E D : Obj)
    (hb : h.forBoard b = true) (hi : (D.get "id").truthy = true)
    (hE : st.task.tasks.find? (fun t => (t.get "id").strictEq (D.get "id")) = some E) :
    onTaskUpdated h st ⟨b, some D⟩ =
      { st with task := updateTaskDirect st.task (D.get "id") (mergePush E D) } := by
  simp only [onTaskUpdated, hb, hi, if_true, hE]

/-- C1. A `task_updated` push for the current board whose task payload `D` has the
identifier `i` of a stored task `E`: afterwards the store still holds a task with
identifier `i`, and every stored task with identifier `i` has `D`'s value for every
field present in `D` and `E`'s value for every field absent from `D`. -/
theorem onTaskUpdated_merges_fields (h : Hook) (st : Stores) (b i : Val) (E D : Obj)
    (hb : h.forBoard b = true) (hid : D.get "id" = i) (hi : i.truthy = true)
    (hE : st.task.tasks.find? (fun t => (t.get "id").strictEq i) = some E) :
    (∃ t ∈ (onTaskUpdated h st ⟨b, some D⟩).task.tasks, t.get "id" = i) ∧
    ∀ t ∈ (onTaskUpdated h st ⟨b, some D⟩).task.tasks, t.get "id" = i →
      (∀ k, D.get k ≠ .undefined → t.get k = D.get k) ∧
      (∀ k, D.has k = false → t.get k = E.get k) := by
  subst hid
  rw [onTaskUpdated_found h st b E D hb hi hE]
  have hne : D.get "id" ≠ .undefined := Val.ne_undefined_of_truthy _ hi
  have hmid : (mergePush E D).get "id" = D.get "id" := mergePush_get_present E D "id" hne
  have hEmem : E ∈ st.task.tasks := List.mem_of_find?_eq_some hE
  have hEid : E.get "id" = D.get "id" := by
    have := List.find?_some hE
    simpa [Val.strictEq] using this
  constructor
  · refine ⟨mergePush E D, ?_, hmid⟩
    simp only [updateTaskDirect, List.mem_map]
    exact ⟨E, hEmem, by simp [Val.strictEq, hEid]⟩
  · intro t ht htid
    simp only [updateTaskDirect, List.mem_map] at ht
    obtain ⟨u, _, hu⟩ := ht
    by_cases hc : (u.get "id").strictEq (D.get "id") = true
    · rw [if_pos hc] at hu
      subst hu
      exact ⟨fun k hk => mergePush_get_present E D k hk,
        fun k hk => mergePush_get_absent E D k hk⟩
    · rw [if_neg hc] at hu
      subst hu
      exact absurd ((Val.strictEq_iff _ _).2 htid) hc

/-- C1, on the spec's scenario: the store holds `t1` (card `c1`, title 'Fix bug',
priority 'high', position 2) and the push carries `{id: 't1', cardId: 'c2',
position: 0}`. -/
theorem onTaskUpdated_merges_fields_witness :
    (onTaskUpdated hookB1 storesT1 ⟨.str "b1", some deltaT1⟩).task.tasks
        = [[("id", .str "t1"), ("cardId", .str "c2"), ("title", .str "Fix bug"),
            ("priority", .str "high"), ("position", .num 0), ("assignedTo", .undefined),
            ("dueDate", .undefined), ("labels", .undefined), ("attachments", .undefined),
            ("githubAttachments", .undefined)]] ∧
      ((∃ t ∈ (onTaskUpdated hookB1 storesT1 ⟨.str "b1", some deltaT1⟩).task.tasks,
          t.get "id" = .str "t1") ∧
        ∀ t ∈ (onTaskUpdated hookB1 storesT1 ⟨.str "b1", some deltaT1⟩).task.tasks,
          t.get "id" = .str "t1" →
            (∀ k, deltaT1.get k ≠ .undefined → t.get k = deltaT1.get k) ∧
            (∀ k, deltaT1.has k = false → t.get k = taskT1.get k)) :=
  ⟨by decide,
   onTaskUpdated_merges_fields hookB1 storesT1 (.str "b1") (.str "t1") taskT1 deltaT1
     (by decide) (by decide) (by decide) (by decide)⟩

/-! ## Deleting a card -/

/-- C2, the failing run: the store holds card `c1` and its task `t1`.  After the
`card_deleted` push for `c1`, and also after a confirmed `deleteCard` of `c1`, the
card store holds no card and the task store still holds `t1` with cardId `c1`. -/
theorem card_delete_keeps_tasks :
    storesC1.card.cards = [cardC1] ∧ storesC1.task.tasks = [taskT1] ∧
    taskT1.get "cardId" = .str "c1" ∧
    (onCardDeleted hookB1 storesC1 cardDeletedC1).card.cards = [] ∧
    (onCardDeleted hookB1 storesC1 cardDeletedC1).task.tasks = [taskT1] ∧
    ¬ (∀ t ∈ (onCardDeleted hookB1 storesC1 cardDeletedC1).task.tasks,
        t.get "cardId" ≠ .str "c1") ∧
    (deleteCardConfirmed storesC1 (.str "c1")).card.cards = [] ∧
    (deleteCardConfirmed storesC1 (.str "c1")).task.tasks = [taskT1] ∧
    ¬ (∀ t ∈ (deleteCardConfirmed storesC1 (.str "c1")).task.tasks,
        t.get "cardId" ≠ .str "c1") := by
  decide

/-- Deleting a card, on either path and for every store, writes the card store
only: the task store afterwards is the task store before. -/
theorem card_delete_task_store (h : Hook) (st : Stores) (c : Val) (data : Obj) :
    (onCardDeleted h st data).task = st.task ∧ (deleteCardConfirmed st c).task = st.task := by
  constructor
  · unfold onCardDeleted
    split_ifs <;> rfl
  · rfl

/-! ## Identifier uniqueness -/

/-- C3, the failing run: `createTask` is confirmed with task `t2`, then the
`task_created` push for the same task arrives.  Identifiers are unique before and
after the confirmation; after the push the store holds `t2` twice. -/
theorem createTask_then_push_duplicates :
    UniqueIds storesC1.task.tasks ∧
    UniqueIds (createTask storesC1.task (.ok taskT2)).tasks ∧
    (onTaskCreated hookB1 { storesC1 with task := createTask storesC1.task (.ok taskT2) }
        ⟨.str "b1", some taskT2⟩ (.ok [])).task.tasks = [taskT1, taskT2, taskT2] ∧
    ¬ UniqueIds
      (onTaskCreated hookB1 { storesC1 with task := createTask storesC1.task (.ok taskT2) }
        ⟨.str "b1", some taskT2⟩ (.ok [])).task.tasks := by
  decide

/-! ## A pushed update for a task the store does not hold -/

/-- C4, the failing run: the store holds only `t1`; a `task_updated` push for the
current board carries task `t9`.  The handler leaves the task list as it was:
`t9` is not inserted. -/
theorem onTaskUpdated_unknown_not_inserted :
    storesC1.task.tasks.find? (fun t => (t.get "id").strictEq (.str "t9")) = none ∧
    (onTaskUpdated hookB1 storesC1 ⟨.str "b1", some taskT9⟩).task.tasks = [taskT1] ∧
    taskT9 ∉ (onTaskUpdated hookB1 storesC1 ⟨.str "b1", some taskT9⟩).task.tasks := by
  decide

/-! ## The merge of a mutation response -/

/-- C5, the failing run: the stored task has a due date; `updateTask` clears it
and the server answers with `dueDate: null`.  The stored task keeps the old due
date. -/
theorem updateTask_null_dueDate_kept :
    clearDueResponse.get "dueDate" = .null ∧
    (updateTask { tasks := [taskDue], loading := false, error := .null } (.str "b1") (.str "c1")
        (.str "t1") clearDueRequest (.ok clearDueResponse)).tasks.map (fun t => t.get "dueDate")
      = [.str "2024-01-01T00:00:00.000Z"] := by
  decide

/-- What `finalTask` holds: for the six listed properties the response's value
when it is truthy and the stored task's value otherwise; for every other property
the response's value where the response has the property, else the stored one. -/
theorem mergeResponse_get (E U : Obj) (k : String) :
    (mergeResponse E U).get k =
      if k = "assignedTo" ∨ k = "dueDate" ∨ k = "priority" ∨ k = "labels" ∨ k = "attachments"
          ∨ k = "githubAttachments" then
        (U.get k).or (E.get k)
      else (if U.has k then U.get k else E.get k) := by
  simp only [mergeResponse, Obj.get_set, Obj.get_spread, @eq_comm _ _ k]
  split_ifs <;> simp_all

theorem overrideCardId_target (A B : Val) (taskData D : Obj)
    (htd : taskData.get "targetCardId" = B) (hBt : B.truthy = true) (hAB : B ≠ A) :
    overrideCardId A taskData D = D.set "cardId" B := by
  have hne : B.strictEq A = false := by
    simpa [Val.strictEq] using hAB
  simp [overrideCardId, htd, hBt, hne]

/-- The task list after a confirmed `updateTask` that names a target card `B`
other than the `cardId` argument, when the store holds the task: every task with
the identifier is replaced by the merge of the first one with the response, the
response's cardId overwritten with `B`. -/
theorem updateTask_ok_tasks (s : TaskState) (boardId A B i : Val) (T D taskData : Obj)
    (hfind : s.tasks.find? (fun t => (t.get "id").strictEq i) = some T)
    (htd : taskData.get "targetCardId" = B) (hBt : B.truthy = true) (hAB : B ≠ A) :
    (updateTask s boardId A i taskData (.ok D)).tasks =
      s.tasks.map (fun t =>
        if (t.get "id").strictEq i then mergeResponse T (D.set "cardId" B) else t) := by
  simp only [updateTask, updateTaskConfirmed, TaskState.start, hfind,
    overrideCardId_target A B taskData D htd hBt hAB]

theorem moveTask_ok_eq_updateTask (s : TaskState) (boardId i B p : Val) (T D : Obj)
    (hfind : s.tasks.find? (fun t => (t.get "id").strictEq i) = some T) :
    moveTask s boardId i B p (.ok D) =
      updateTask s boardId (T.get "cardId") i (moveTaskData T B p) (.ok D) := by
  simp only [moveTask, hfind]

theorem moveTaskData_target (T : Obj) (B p : Val) :
    (moveTaskData T B p).get "targetCardId" = B := by
  simp [moveTaskData, Obj.get, Obj.has]

theorem mergeResponse_cardId (T D : Obj) (B : Val) :
    (mergeResponse T (D.set "cardId" B)).get "cardId" = B := by
  rw [mergeResponse_get]
  simp [Obj.has_set, Obj.get_set]

/-- C6. A task `T` with identifier `i` is stored with cardId `A`, and `B` is another
card's identifier.  After a confirmed `updateTask` for card `A` with `targetCardId`
`B`, and after a confirmed `moveTask` to `B`, the task in each place where a task
with identifier `i` was stored has cardId `B`, and so has every stored task with
identifier `i`, whatever the response `D` carries. -/
theorem move_sets_target_card (s : TaskState) (boardId i A B p : Val) (T D taskData : Obj)
    (hfind : s.tasks.find? (fun t => (t.get "id").strictEq i) = some T)
    (hA : T.get "cardId" = A) (hBt : B.truthy = true) (hAB : B ≠ A)
    (htd : taskData.get "targetCardId" = B) :
    (List.Forall₂ (fun old new => old.get "id" = i → new.get "cardId" = B)
        s.tasks (updateTask s boardId A i taskData (.ok D)).tasks ∧
      ∀ t ∈ (updateTask s boardId A i taskData (.ok D)).tasks,
        t.get "id" = i → t.get "cardId" = B) ∧
    (List.Forall₂ (fun old new => old.get "id" = i → new.get "cardId" = B)
        s.tasks (moveTask s boardId i B p (.ok D)).tasks ∧
      ∀ t ∈ (moveTask s boardId i B p (.ok D)).tasks,
        t.get "id" = i → t.get "cardId" = B) := by
  have key : ∀ td : Obj, td.get "targetCardId" = B →
      List.Forall₂ (fun old new => old.get "id" = i → new.get "cardId" = B)
        s.tasks (updateTask s boardId A i td (.ok D)).tasks ∧
      ∀ t ∈ (updateTask s boardId A i td (.ok D)).tasks,
        t.get "id" = i → t.get "cardId" = B := by
    intro td htd'
    rw [updateTask_ok_tasks s boardId A B i T D td hfind htd' hBt hAB]
    constructor
    · rw [List.forall₂_map_right_iff]
      apply List.forall₂_same.2
      intro x _ hx
      have hx' : (x.get "id").strictEq i = true := (Val.strictEq_iff _ _).2 hx
      rw [if_pos hx']
      exact mergeResponse_cardId T D B
    · intro t ht htid
      simp only [List.mem_map] at ht
      obtain ⟨u, _, hu⟩ := ht
      by_cases hc : (u.get "id").strictEq i = true
      · rw [if_pos hc] at hu
        subst hu
        exact mergeResponse_cardId T D B
      · rw [if_neg hc] at hu
        subst hu
        exact absurd ((Val.strictEq_iff _ _).2 htid) hc
  refine ⟨key taskData htd, ?_⟩
  rw [moveTask_ok_eq_updateTask s boardId i B p T D hfind, hA]
  exact key _ (moveTaskData_target T B p)

/-- C6, on a store where card `c2` already holds a task: `t1` moves from `c1` to
`c2` while the response still says `c1`. -/
theorem move_sets_target_card_witness :
    (tasksTwoCards.tasks.find? (fun t => (t.get "id").strictEq (.str "t1")) = some taskT1 ∧
      taskT1.get "cardId" = .str "c1" ∧ (Val.str "c2").truthy = true ∧
      Val.str "c2" ≠ Val.str "c1" ∧
      Obj.get [("targetCardId", .str "c2"), ("position", .num 0)] "targetCardId" = .str "c2") ∧
    ((List.Forall₂ (fun old new => old.get "id" = Val.str "t1" → new.get "cardId" = Val.str "c2")
        tasksTwoCards.tasks
        (updateTask tasksTwoCards (.str "b1") (.str "c1") (.str "t1")
          [("targetCardId", .str "c2"), ("position", .num 0)] (.ok taskT1)).tasks ∧
      ∀ t ∈ (updateTask tasksTwoCards (.str "b1") (.str "c1") (.str "t1")
          [("targetCardId", .str "c2"), ("position", .num 0)] (.ok taskT1)).tasks,
        t.get "id" = .str "t1" → t.get "cardId" = .str "c2") ∧
    (List.Forall₂ (fun old new => old.get "id" = Val.str "t1" → new.get "cardId" = Val.str "c2")
        tasksTwoCards.tasks
        (moveTask tasksTwoCards (.str "b1") (.str "t1") (.str "c2") (.num 0) (.ok taskT1)).tasks ∧
      ∀ t ∈ (moveTask tasksTwoCards (.str "b1") (.str "t1") (.str "c2") (.num 0)
          (.ok taskT1)).tasks,
        t.get "id" = .str "t1" → t.get "cardId" = .str "c2")) :=
  ⟨⟨by decide, by decide, by decide, by decide, by decide⟩,
   move_sets_target_card tasksTwoCards (.str "b1") (.str "t1") (.str "c1") (.str "c2") (.num 0)
     taskT1 taskT1 [("targetCardId", .str "c2"), ("position", .num 0)]
     (by decide) (by decide) (by decide) (by decide) (by decide)⟩

/-! ## The sort of `getTasksForCard` -/

theorem perm_insertBy {α : Type} (cmp : α → α → Int) (a : α) (l : List α) :
    (insertBy cmp a l).Perm (a :: l) := by
  induction l with
  | nil => exact List.Perm.refl _
  | cons b l ih =>
    simp only [insertBy]
    split_ifs
    · exact List.Perm.refl _
    · exact (List.Perm.cons b ih).trans (List.Perm.swap a b l)

theorem perm_jsSort {α : Type} (cmp : α → α → Int) (l : List α) : (jsSort cmp l).Perm l := by
  induction l with
  | nil => exact List.Perm.refl _
  | cons a l ih => exact (perm_insertBy cmp a _).trans (List.Perm.cons a ih)

theorem mem_insertBy {α : Type} (cmp : α → α → Int) (a x : α) (l : List α) :
    x ∈ insertBy cmp a l ↔ x = a ∨ x ∈ l := by
  rw [(perm_insertBy cmp a l).mem_iff, List.mem_cons]

theorem mem_jsSort {α : Type} (cmp : α → α → Int) (x : α) (l : List α) :
    x ∈ jsSort cmp l ↔ x ∈ l := (perm_jsSort cmp l).mem_iff

theorem comparePosition_le (a b : Obj) : comparePosition a b ≤ 0 ↔ posKey a ≤ posKey b := by
  unfold comparePosition posKey
  omega

theorem sorted_insertBy (a : Obj) (l : List Obj)
    (h : l.Pairwise (fun x y => posKey x ≤ posKey y)) :
    (insertBy comparePosition a l).Pairwise (fun x y => posKey x ≤ posKey y) := by
  induction l with
  | nil => simp [insertBy]
  | cons b l ih =>
    rw [List.pairwise_cons] at h
    simp only [insertBy]
    by_cases hc : comparePosition a b ≤ 0
    · rw [if_pos hc]
      have hab := (comparePosition_le a b).1 hc
      refine List.pairwise_cons.2 ⟨?_, List.pairwise_cons.2 h⟩
      intro x hx
      rcases List.mem_cons.1 hx with hx | hx
      · subst hx; exact hab
      · exact le_trans hab (h.1 x hx)
    · rw [if_neg hc]
      have hba : posKey b ≤ posKey a := by
        have := (comparePosition_le a b).not.1 hc
        omega
      refine List.pairwise_cons.2 ⟨?_, ih h.2⟩
      intro x hx
      rcases (mem_insertBy _ _ _ _).1 hx with hx | hx
      · subst hx; exact hba
      · exact h.1 x hx

theorem sorted_jsSort (l : List Obj) :
    (jsSort comparePosition l).Pairwise (fun x y => posKey x ≤ posKey y) := by
  induction l with
  | nil => simp [jsSort]
  | cons a l ih => exact sorted_insertBy a _ ih

/-- Stability of the insertion: among the tasks of one position the new task comes
first and the others keep their order. -/
theorem filter_insertBy (n : Int) (a : Obj) (l : List Obj) :
    (insertBy comparePosition a l).filter (fun t => posKey t == n)
      = (a :: l).filter (fun t => posKey t == n) := by
  induction l with
  | nil => rfl
  | cons b l ih =>
    simp only [insertBy]
    by_cases hc : comparePosition a b ≤ 0
    · rw [if_pos hc]
    · rw [if_neg hc]
      have hne : posKey a ≠ posKey b := by
        have := (comparePosition_le a b).not.1 hc
        omega
      rw [List.filter_cons, ih]
      by_cases ha : posKey a = n
      · have hb : ¬ posKey b = n := fun hb => hne (ha.trans hb.symm)
        simp [List.filter_cons, ha, hb]
      · simp [List.filter_cons, ha]

/-- Stability of the sort: the tasks of one position keep the order they had. -/
theorem filter_jsSort (n : Int) (l : List Obj) :
    (jsSort comparePosition l).filter (fun t => posKey t == n)
      = l.filter (fun t => posKey t == n) := by
  induction l with
  | nil => rfl
  | cons a l ih =>
    simp only [jsSort]
    rw [filter_insertBy, List.filter_cons, ih, List.filter_cons]

/-- A task that comes strictly before everything in front of it and not after
anything behind it is the first element of the sorted array. -/
theorem head_jsSort (x : Obj) (l1 l2 : List Obj)
    (h1 : ∀ u ∈ l1, posKey x < posKey u) (h2 : ∀ u ∈ l2, posKey x ≤ posKey u) :
    (jsSort comparePosition (l1 ++ x :: l2)).head? = some x := by
  induction l1 with
  | nil =>
    simp only [List.nil_append, jsSort]
    cases hs : jsSort comparePosition l2 with
    | nil => rfl
    | cons y r =>
      have hy : y ∈ l2 := (mem_jsSort comparePosition y l2).1 (by rw [hs]; simp)
      have hxy := (comparePosition_le x y).2 (h2 y hy)
      simp only [insertBy, if_pos hxy, List.head?_cons]
  | cons a l1 ih =>
    have ih' := ih (fun u hu => h1 u (List.mem_cons_of_mem _ hu))
    simp only [List.cons_append, jsSort]
    cases hs : jsSort comparePosition (l1 ++ x :: l2) with
    | nil => rw [hs] at ih'; simp at ih'
    | cons y r =>
      rw [hs] at ih'
      simp only [List.head?_cons, Option.some.injEq] at ih'
      subst ih'
      have hlt := h1 a (List.mem_cons_self _ _)
      have hc : ¬ comparePosition a y ≤ 0 := by
        rw [comparePosition_le]; omega
      simp only [insertBy, if_neg hc, List.head?_cons]

theorem positionOr0_eq_of_numeric (t : Obj) (h : NumericPosition t) :
    positionOr0 t = .num (posKey t) := by
  unfold NumericPosition at h
  unfold posKey
  cases hv : positionOr0 t <;> rw [hv] at h <;> simp [Val.isNum, Val.toInt] at h ⊢

/-- C9. `getTasksForCard(c)` returns exactly the stored tasks whose cardId is `c`
(a rearrangement of that sub-list), ordered so that positions never decrease when
the positions are numbers (a missing position counting as 0), and it leaves the
store as it was. -/
theorem getTasksForCard_selects_and_orders (s : TaskState) (c : Val) :
    (getTasksForCard s c).1.Perm (s.tasks.filter (fun t => (t.get "cardId").strictEq c)) ∧
    ((∀ t ∈ s.tasks, NumericPosition t) →
      (getTasksForCard s c).1.Pairwise (fun a b =>
        ∃ m n : Int, positionOr0 a = .num m ∧ positionOr0 b = .num n ∧ m ≤ n)) ∧
    (getTasksForCard s c).2 = s := by
  refine ⟨perm_jsSort _ _, ?_, rfl⟩
  intro hnum
  have hs := sorted_jsSort (s.tasks.filter (fun t => (t.get "cardId").strictEq c))
  have hmem : ∀ a ∈ (getTasksForCard s c).1, NumericPosition a := by
    intro a ha
    have ha' := (mem_jsSort _ _ _).1 ha
    exact hnum a (List.mem_filter.1 ha').1
  refine List.Pairwise.imp_of_mem ?_ hs
  intro a b ha hb hab
  exact ⟨posKey a, posKey b, positionOr0_eq_of_numeric a (hmem a ha),
    positionOr0_eq_of_numeric b (hmem b hb), hab⟩

/-- C9, on a store of four tasks, three of them in card `c1`. -/
theorem getTasksForCard_selects_and_orders_witness :
    (∀ t ∈ tasksTies.tasks, NumericPosition t) ∧
    (getTasksForCard tasksTies (.str "c1")).1.map (fun t => t.get "id")
      = [.str "t3", .str "b", .str "a"] ∧
    (getTasksForCard tasksTies (.str "c1")).1.Pairwise (fun a b =>
      ∃ m n : Int, positionOr0 a = .num m ∧ positionOr0 b = .num n ∧ m ≤ n) :=
  ⟨by decide, by decide,
   (getTasksForCard_selects_and_orders tasksTies (.str "c1")).2.1 (by decide)⟩

/-- C10, as stated, fails: `b` and `a` are both in card `c1` at position 1 and the
store holds `b` first; `getTasksForCard('c1')` returns `b` before `a`, although
'a' < 'b'. -/
theorem getTasksForCard_ties_counterexample :
    (getTasksForCard tasksTies (.str "c1")).1.map (fun t => (t.get "id", t.get "position"))
      = [(.str "t3", .undefined), (.str "b", .num 1), (.str "a", .num 1)] ∧
    "a" < "b" :=
  ⟨by decide, String.lt_iff_toList_lt.2 (by decide)⟩

/-- C10, amended. Two tasks of `getTasksForCard(c)` that have the same position
appear in the order they have in the store's task list: the comparator looks at
positions only and the sort is stable. -/
theorem getTasksForCard_ties_keep_store_order (s : TaskState) (c : Val) (a b : Obj)
    (hnum : ∀ t ∈ s.tasks, NumericPosition t)
    (hab : List.Sublist [a, b] (getTasksForCard s c).1)
    (hpos : positionOr0 a = positionOr0 b) :
    List.Sublist [a, b] s.tasks := by
  have hmem : ∀ t ∈ [a, b], t ∈ s.tasks := fun t ht =>
    (List.mem_filter.1 ((mem_jsSort _ _ _).1 (hab.subset ht))).1
  have ha := positionOr0_eq_of_numeric a (hnum a (hmem a (by simp)))
  have hb := positionOr0_eq_of_numeric b (hnum b (hmem b (by simp)))
  have hkey : posKey b = posKey a := by
    rw [ha, hb] at hpos
    exact (Val.num.inj hpos).symm
  have h1 := hab.filter (fun t => posKey t == posKey a)
  have h2 : [a, b].filter (fun t => posKey t == posKey a) = [a, b] := by
    simp [List.filter_cons, hkey]
  rw [h2] at h1
  simp only [getTasksForCard, tasksForCard] at h1
  rw [filter_jsSort] at h1
  exact (h1.trans (List.filter_sublist _)).trans (List.filter_sublist _)

/-- C10, amended, on the store where `b` is stored before `a`, both at position 1. -/
theorem getTasksForCard_ties_keep_store_order_witness :
    ((∀ t ∈ tasksTies.tasks, NumericPosition t) ∧
      List.Sublist
        [[("id", .str "b"), ("cardId", .str "c1"), ("title", .str "Second"), ("position", .num 1)],
         [("id", .str "a"), ("cardId", .str "c1"), ("title", .str "Third"), ("position", .num 1)]]
        (getTasksForCard tasksTies (.str "c1")).1) ∧
    List.Sublist
      [[("id", .str "b"), ("cardId", .str "c1"), ("title", .str "Second"), ("position", .num 1)],
       [("id", .str "a"), ("cardId", .str "c1"), ("title", .str "Third"), ("position", .num 1)]]
      tasksTies.tasks :=
  ⟨⟨by decide, by decide⟩,
   getTasksForCard_ties_keep_store_order tasksTies (.str "c1") _ _ (by decide) (by decide)
     (by decide)⟩

/-! ## Moving a task to the front of another card -/

theorem find_first_with_id (i : Val) (T : Obj) (l1 l2 : List Obj)
    (hl1 : ∀ u ∈ l1, u.get "id" ≠ i) (hT : T.get "id" = i) :
    (l1 ++ T :: l2).find? (fun t => (t.get "id").strictEq i) = some T := by
  induction l1 with
  | nil => simp [List.find?, Val.strictEq, hT]
  | cons a l1 ih =>
    have ha : (a.get "id").strictEq i = false := by
      simpa [Val.strictEq] using hl1 a (List.mem_cons_self _ _)
    simp only [List.cons_append, List.find?, ha]
    exact ih (fun u hu => hl1 u (List.mem_cons_of_mem _ hu))

theorem map_replace_of_no_id (i : Val) (F : Obj) (l : List Obj)
    (hl : ∀ u ∈ l, u.get "id" ≠ i) :
    l.map (fun t => if (t.get "id").strictEq i then F else t) = l := by
  induction l with
  | nil => rfl
  | cons a l ih =>
    have ha : (a.get "id").strictEq i = false := by
      simpa [Val.strictEq] using hl a (List.mem_cons_self _ _)
    simp only [List.map, ha]
    rw [ih (fun u hu => hl u (List.mem_cons_of_mem _ hu))]
    simp

theorem mergeResponse_position (T D : Obj) (B p : Val) (hp : D.get "position" = p)
    (hpe : p ≠ .undefined) :
    (mergeResponse T (D.set "cardId" B)).get "position" = p := by
  have hhas : D.has "position" = true := Obj.has_of_get_ne D "position" (by rw [hp]; exact hpe)
  rw [mergeResponse_get]
  simp [Obj.has_set, Obj.get_set, hhas, hp]

/-- C7, as stated, fails: card `c2` already holds `u1` at position 0, stored in
front of `t1`; `t1` is moved to `c2` at position 0 and the response carries
position 0.  `getTasksForCard('c2')` then returns `u1` first and `t1` second. -/
theorem moveTask_not_first_counterexample :
    (moveTask tasksTwoCards (.str "b1") (.str "t1") (.str "c2") (.num 0) (.ok movedT1)).tasks.map
        (fun t => (t.get "id", t.get "cardId", t.get "position"))
      = [(.str "u1", .str "c2", .num 0), (.str "t1", .str "c2", .num 0)] ∧
    (getTasksForCard
        (moveTask tasksTwoCards (.str "b1") (.str "t1") (.str "c2") (.num 0) (.ok movedT1))
        (.str "c2")).1.map (fun t => t.get "id")
      = [.str "u1", .str "t1"] := by
  decide

/-- C7, amended. Task `T` (the first stored task with identifier `i`, in card `A`)
is moved to another card `B` at position 0 and the response carries position 0.
The reconciled task takes `T`'s place in the store with cardId `B` and position 0,
the other tasks are not renumbered, and the reconciled task is the first element
of `getTasksForCard(B)` whenever every task of `B` stored in front of `T` has a
position above 0 and every other task of `B` stored behind `T` has a position of
0 or more (a missing position counting as 0). -/
theorem moveTask_first_in_target (s : TaskState) (boardId i A B : Val) (T D : Obj)
    (l1 l2 : List Obj)
    (hsplit : s.tasks = l1 ++ T :: l2)
    (hl1 : ∀ u ∈ l1, u.get "id" ≠ i) (hT : T.get "id" = i) (hA : T.get "cardId" = A)
    (hBt : B.truthy = true) (hAB : B ≠ A)
    (hpos : D.get "position" = .num 0)
    (hfront : ∀ u ∈ l1, u.get "cardId" = B → ∃ n : Int, u.get "position" = .num n ∧ 0 < n)
    (hback : ∀ u ∈ l2, u.get "id" ≠ i → u.get "cardId" = B →
      ∃ n : Int, positionOr0 u = .num n ∧ 0 ≤ n) :
    (moveTask s boardId i B (.num 0) (.ok D)).tasks
        = l1 ++ mergeResponse T (D.set "cardId" B)
            :: l2.map (fun t =>
                if (t.get "id").strictEq i then mergeResponse T (D.set "cardId" B) else t) ∧
      (mergeResponse T (D.set "cardId" B)).get "cardId" = B ∧
      (mergeResponse T (D.set "cardId" B)).get "position" = .num 0 ∧
      (getTasksForCard (moveTask s boardId i B (.num 0) (.ok D)) B).1.head?
        = some (mergeResponse T (D.set "cardId" B)) := by
  have hfind : s.tasks.find? (fun t => (t.get "id").strictEq i) = some T := by
    rw [hsplit]; exact find_first_with_id i T l1 l2 hl1 hT
  have hFc := mergeResponse_cardId T D B
  have hFp := mergeResponse_position T D B (.num 0) hpos (by simp)
  have hTi : (T.get "id").strictEq i = true := (Val.strictEq_iff _ _).2 hT
  have htasks : (moveTask s boardId i B (.num 0) (.ok D)).tasks
      = l1 ++ mergeResponse T (D.set "cardId" B)
          :: l2.map (fun t =>
              if (t.get "id").strictEq i then mergeResponse T (D.set "cardId" B) else t) := by
    rw [moveTask_ok_eq_updateTask s boardId i B (.num 0) T D hfind,
      updateTask_ok_tasks s boardId (T.get "cardId") B i T D _ hfind
        (moveTaskData_target T B (.num 0)) hBt (by rw [hA]; exact hAB),
      hsplit, List.map_append, List.map_cons, map_replace_of_no_id i _ l1 hl1, if_pos hTi]
  refine ⟨htasks, hFc, hFp, ?_⟩
  have hFk : posKey (mergeResponse T (D.set "cardId" B)) = 0 := by
    simp [posKey, positionOr0, hFp, Val.or, Val.truthy, Val.toInt]
  have hFB : ((mergeResponse T (D.set "cardId" B)).get "cardId").strictEq B = true :=
    (Val.strictEq_iff _ _).2 hFc
  simp only [getTasksForCard, tasksForCard]
  rw [htasks, List.filter_append, List.filter_cons, if_pos hFB]
  apply head_jsSort
  · intro u hu
    obtain ⟨hu1, hu2⟩ := List.mem_filter.1 hu
    obtain ⟨n, hn, hn0⟩ := hfront u hu1 ((Val.strictEq_iff _ _).1 hu2)
    have hne : (n != 0) = true := by simpa using (ne_of_gt hn0)
    have : posKey u = n := by
      simp [posKey, positionOr0, hn, Val.or, Val.truthy, Val.toInt, hne]
    rw [hFk, this]; exact hn0
  · intro u hu
    obtain ⟨hu1, hu2⟩ := List.mem_filter.1 hu
    obtain ⟨v, hv, hvu⟩ := List.mem_map.1 hu1
    by_cases hc : (v.get "id").strictEq i = true
    · rw [if_pos hc] at hvu
      subst hvu
      exact le_refl _
    · rw [if_neg hc] at hvu
      subst hvu
      have hvi : v.get "id" ≠ i := fun hh => hc ((Val.strictEq_iff _ _).2 hh)
      obtain ⟨n, hn, hn0⟩ := hback v hv hvi ((Val.strictEq_iff _ _).1 hu2)
      have : posKey v = n := by simp [posKey, hn, Val.toInt]
      rw [hFk, this]; exact hn0

/-- C7, amended, on the store `[v1, t1, w1]`: `v1` (card `c2`, position 2) is in
front of `t1`, `w1` (card `c2`, no position) behind it; `t1` moves to `c2` at 0. -/
theorem moveTask_first_in_target_witness :
    (tasksFront.tasks = [taskV1] ++ taskT1 :: [taskW1] ∧
      (∀ u ∈ [taskV1], u.get "id" ≠ Val.str "t1") ∧
      (∀ u ∈ [taskV1], u.get "cardId" = Val.str "c2" →
        ∃ n : Int, u.get "position" = .num n ∧ 0 < n) ∧
      (∀ u ∈ [taskW1], u.get "id" ≠ Val.str "t1" → u.get "cardId" = Val.str "c2" →
        ∃ n : Int, positionOr0 u = .num n ∧ 0 ≤ n)) ∧
    (getTasksForCard
        (moveTask tasksFront (.str "b1") (.str "t1") (.str "c2") (.num 0) (.ok movedT1))
        (.str "c2")).1.head?
      = some (mergeResponse taskT1 (movedT1.set "cardId" (.str "c2"))) :=
  have hfront : ∀ u ∈ [taskV1], u.get "cardId" = Val.str "c2" →
      ∃ n : Int, u.get "position" = .num n ∧ 0 < n :=
    fun u hu _ => by rw [List.mem_singleton.1 hu]; exact ⟨2, by decide, by decide⟩
  have hback : ∀ u ∈ [taskW1], u.get "id" ≠ Val.str "t1" → u.get "cardId" = Val.str "c2" →
      ∃ n : Int, positionOr0 u = .num n ∧ 0 ≤ n :=
    fun u hu _ _ => by rw [List.mem_singleton.1 hu]; exact ⟨0, by decide, by decide⟩
  ⟨⟨by decide, by decide, hfront, hback⟩,
   (moveTask_first_in_target tasksFront (.str "b1") (.str "t1") (.str "c1") (.str "c2")
      taskT1 movedT1 [taskV1] [taskW1] (by decide) (by decide) (by decide) (by decide)
      (by decide) (by decide) (by decide) hfront hback).2.2.2⟩

/-! ## Positions within a card after a move -/

/-- C8, as stated, fails: no two tasks of one card share a position in the store
`[u1 (card c2, position 0), t1 (card c1, position 2)]`; after `t1` is moved to `c2`
at position 0 and the response is reconciled, `u1` and `t1` are both in `c2` at
position 0. -/
theorem move_duplicates_position_counterexample :
    DistinctPositions tasksTwoCards.tasks ∧
    ¬ DistinctPositions
      (moveTask tasksTwoCards (.str "b1") (.str "t1") (.str "c2") (.num 0) (.ok movedT1)).tasks ∧
    ¬ DistinctPositions
      (updateTask tasksTwoCards (.str "b1") (.str "c1") (.str "t1")
        [("targetCardId", .str "c2"), ("position", .num 0)] (.ok movedT1)).tasks := by
  decide

/-- The task list keeps distinct positions per card when one task is replaced by
a task whose position no other task of its card has. -/
theorem distinctPositions_replace (l : List Obj) (i : Val) (T F : Obj)
    (hdist : DistinctPositions l)
    (honly : ∀ u ∈ l, u.get "id" = i → u = T)
    (hfree : ∀ u ∈ l, u.get "id" ≠ i → u.get "cardId" = F.get "cardId" →
      positionOr0 u ≠ positionOr0 F) :
    DistinctPositions (l.map (fun t => if (t.get "id").strictEq i then F else t)) := by
  unfold DistinctPositions at hdist ⊢
  rw [List.pairwise_map]
  refine List.Pairwise.imp_of_mem ?_ hdist
  intro a b ha hb hab
  by_cases hai : a.get "id" = i
  · by_cases hbi : b.get "id" = i
    · have e1 := honly a ha hai
      have e2 := honly b hb hbi
      subst e1; subst e2
      exact absurd rfl (hab rfl)
    · have h1 : (a.get "id").strictEq i = true := (Val.strictEq_iff _ _).2 hai
      have h2 : ¬ (b.get "id").strictEq i = true := fun hh => hbi ((Val.strictEq_iff _ _).1 hh)
      rw [if_pos h1, if_neg h2]
      intro hc
      exact (hfree b hb hbi hc.symm).symm
  · have h1 : ¬ (a.get "id").strictEq i = true := fun hh => hai ((Val.strictEq_iff _ _).1 hh)
    rw [if_neg h1]
    by_cases hbi : b.get "id" = i
    · have h2 : (b.get "id").strictEq i = true := (Val.strictEq_iff _ _).2 hbi
      rw [if_pos h2]
      intro hc
      exact hfree a ha hai hc
    · have h2 : ¬ (b.get "id").strictEq i = true := fun hh => hbi ((Val.strictEq_iff _ _).1 hh)
      rw [if_neg h2]
      exact hab

/-- C8, amended. Before the move no two tasks of one card have the same position
and `T` is the only stored task with identifier `i`; `T` is moved from card `A` to
another card `B` and the response carries position `p`.  If no other task of `B`
has position `p`, then after the confirmed `updateTask` / `moveTask` still no two
tasks of one card have the same position (the siblings are not renumbered, so a
position already taken in `B` stays taken). -/
theorem move_keeps_distinct_positions (s : TaskState) (boardId i A B p q : Val)
    (T D taskData : Obj)
    (hdist : DistinctPositions s.tasks)
    (hfind : s.tasks.find? (fun t => (t.get "id").strictEq i) = some T)
    (honly : ∀ u ∈ s.tasks, u.get "id" = i → u = T)
    (hA : T.get "cardId" = A) (hBt : B.truthy = true) (hAB : B ≠ A)
    (hp : D.get "position" = p) (hpe : p ≠ .undefined)
    (hfree : ∀ u ∈ s.tasks, u.get "id" ≠ i → u.get "cardId" = B →
      positionOr0 u ≠ p.or (.num 0))
    (htd : taskData.get "targetCardId" = B) :
    DistinctPositions (updateTask s boardId A i taskData (.ok D)).tasks ∧
    DistinctPositions (moveTask s boardId i B q (.ok D)).tasks := by
  have hFc := mergeResponse_cardId T D B
  have hFp := mergeResponse_position T D B p hp hpe
  have hF : positionOr0 (mergeResponse T (D.set "cardId" B)) = p.or (.num 0) := by
    simp only [positionOr0, hFp]
  have key : DistinctPositions (s.tasks.map (fun t =>
      if (t.get "id").strictEq i then mergeResponse T (D.set "cardId" B) else t)) := by
    apply distinctPositions_replace s.tasks i T _ hdist honly
    intro u hu hui huc
    rw [hF]
    exact hfree u hu hui (huc.trans hFc)
  constructor
  · rw [updateTask_ok_tasks s boardId A B i T D taskData hfind htd hBt hAB]
    exact key
  · rw [moveTask_ok_eq_updateTask s boardId i B q T D hfind,
      updateTask_ok_tasks s boardId (T.get "cardId") B i T D _ hfind
        (moveTaskData_target T B q) hBt (by rw [hA]; exact hAB)]
    exact key

/-- C8, amended, on the store `[v1, t1, w1]`: `t1` moves to `c2` with the response
carrying position 1, which neither `v1` (2) nor `w1` (none, so 0) has. -/
theorem move_keeps_distinct_positions_witness :
    (DistinctPositions tasksFront.tasks ∧
      tasksFront.tasks.find? (fun t => (t.get "id").strictEq (.str "t1")) = some taskT1 ∧
      (∀ u ∈ tasksFront.tasks, u.get "id" = Val.str "t1" → u = taskT1) ∧
      (∀ u ∈ tasksFront.tasks, u.get "id" ≠ Val.str "t1" → u.get "cardId" = Val.str "c2" →
        positionOr0 u ≠ (Val.num 1).or (.num 0))) ∧
    (DistinctPositions
      (updateTask tasksFront (.str "b1") (.str "c1") (.str "t1")
        [("targetCardId", .str "c2"), ("position", .num 1)]
        (.ok (movedT1.set "position" (.num 1)))).tasks ∧
    DistinctPositions
      (moveTask tasksFront (.str "b1") (.str "t1") (.str "c2") (.num 1)
        (.ok (movedT1.set "position" (.num 1)))).tasks) :=
  ⟨⟨by decide, by decide, by decide, by decide⟩,
   move_keeps_distinct_positions tasksFront (.str "b1") (.str "t1") (.str "c1") (.str "c2")
     (.num 1) (.num 1) taskT1 (movedT1.set "position" (.num 1))
     [("targetCardId", .str "c2"), ("position", .num 1)]
     (by decide) (by decide) (by decide) (by decide) (by decide) (by decide) (by decide)
     (by decide) (by decide) (by decide)⟩

/-! ## The order of the card list -/

/-- C11, the failing run: the cards `c1` (position 0) and `c2` (position 1) are
held in position order; a `card_moved` push (and just as well a `card_updated`
push, handled by a hook that closed over these cards) gives `c1` position 2.  The
store then holds `c1` (position 2) in front of
`c2` (position 1), and the columns are rendered in that order. -/
theorem card_moved_breaks_position_order :
    CardsAscending storesTwoCards.card.cards ∧
    (onCardMoved hookB1 storesTwoCards cardMovedC1).card.cards.map
        (fun c => (c.get "id", c.get "position"))
      = [(.str "c1", .num 2), (.str "c2", .num 1)] ∧
    ¬ CardsAscending (onCardMoved hookB1 storesTwoCards cardMovedC1).card.cards ∧
    ¬ CardsAscending
        (onCardUpdated hookTwoCards storesTwoCards cardMovedC1 (.ok [])).card.cards ∧
    boardColumns (onCardMoved hookB1 storesTwoCards cardMovedC1).card.cards
      = (onCardMoved hookB1 storesTwoCards cardMovedC1).card.cards := by
  decide

/-! ## Field-wise equality -/

theorem Obj.same_refl (a : Obj) : Obj.Same a a := fun _ => rfl

theorem Obj.same_symm {a b : Obj} (h : Obj.Same a b) : Obj.Same b a := fun k => (h k).symm

theorem Obj.same_trans {a b c : Obj} (h1 : Obj.Same a b) (h2 : Obj.Same b c) : Obj.Same a c :=
  fun k => (h1 k).trans (h2 k)

theorem sameEntities_refl (l : List Obj) : SameEntities l l :=
  List.forall₂_same.2 (fun a _ => Obj.same_refl a)

/-- Replacing the tasks of one identifier by either of two tasks that agree field
by field gives lists that agree place by place. -/
theorem sameEntities_replace (i : Val) (F G : Obj) (l : List Obj) (h : Obj.Same F G) :
    SameEntities (l.map (fun t => if (t.get "id").strictEq i then F else t))
      (l.map (fun t => if (t.get "id").strictEq i then G else t)) := by
  unfold SameEntities
  rw [List.forall₂_map_left_iff, List.forall₂_map_right_iff]
  apply List.forall₂_same.2
  intro t _
  by_cases hc : (t.get "id").strictEq i = true
  · rw [if_pos hc, if_pos hc]; exact h
  · rw [if_neg hc, if_neg hc]; exact Obj.same_refl t

/-- Replacing the tasks of one identifier by a task that agrees with each of them
field by field leaves a list that agrees with the old one place by place. -/
theorem sameEntities_replace_self (i : Val) (F : Obj) (l : List Obj)
    (h : ∀ u ∈ l, u.get "id" = i → Obj.Same u F) :
    SameEntities l (l.map (fun t => if (t.get "id").strictEq i then F else t)) := by
  unfold SameEntities
  rw [List.forall₂_map_right_iff]
  apply List.forall₂_same.2
  intro t ht
  by_cases hc : (t.get "id").strictEq i = true
  · rw [if_pos hc]; exact h t ht ((Val.strictEq_iff _ _).1 hc)
  · rw [if_neg hc]; exact Obj.same_refl t

theorem find_after_replace (i : Val) (E F : Obj) (l : List Obj)
    (hE : l.find? (fun t => (t.get "id").strictEq i) = some E) (hF : F.get "id" = i) :
    (l.map (fun t => if (t.get "id").strictEq i then F else t)).find?
      (fun t => (t.get "id").strictEq i) = some F := by
  induction l with
  | nil => simp at hE
  | cons a l ih =>
    by_cases hc : (a.get "id").strictEq i = true
    · have hFi : (F.get "id").strictEq i = true := (Val.strictEq_iff _ _).2 hF
      rw [List.map_cons, if_pos hc]
      simp only [List.find?, hFi]
    · have hc' : (a.get "id").strictEq i = false := by simpa using hc
      simp only [List.find?, hc'] at hE
      rw [List.map_cons, if_neg hc]
      simp only [List.find?, hc']
      exact ih hE

theorem find_none_after_replace (i : Val) (F : Obj) (l : List Obj) (hF : F.get "id" ≠ i) :
    (l.map (fun t => if (t.get "id").strictEq i then F else t)).find?
      (fun t => (t.get "id").strictEq i) = none := by
  have hFi : (F.get "id").strictEq i = false := by simpa [Val.strictEq] using hF
  induction l with
  | nil => rfl
  | cons a l ih =>
    by_cases hc : (a.get "id").strictEq i = true
    · rw [List.map_cons, if_pos hc]
      simp only [List.find?, hFi]; exact ih
    · have hc' : (a.get "id").strictEq i = false := by simpa using hc
      rw [List.map_cons, if_neg hc]
      simp only [List.find?, hc']; exact ih

theorem map_replace_twice (i : Val) (F G : Obj) (l : List Obj) (hF : F.get "id" = i) :
    (l.map (fun t => if (t.get "id").strictEq i then F else t)).map
        (fun t => if (t.get "id").strictEq i then G else t)
      = l.map (fun t => if (t.get "id").strictEq i then G else t) := by
  have hFi : (F.get "id").strictEq i = true := (Val.strictEq_iff _ _).2 hF
  rw [List.map_map]
  apply List.map_congr_left
  intro t _
  by_cases hc : (t.get "id").strictEq i = true
  · simp only [Function.comp, if_pos hc, hFi, if_true]
  · simp only [Function.comp, if_neg hc]

theorem map_replace_of_find_none (i : Val) (F : Obj) (l : List Obj)
    (h : l.find? (fun t => (t.get "id").strictEq i) = none) :
    l.map (fun t => if (t.get "id").strictEq i then F else t) = l := by
  apply map_replace_of_no_id
  intro u hu hui
  have := List.find?_eq_none.1 h u hu
  exact this ((Val.strictEq_iff _ _).2 hui)

/-- The task list after the `task_updated` handler has merged a payload into a
stored task. -/
theorem onTaskUpdated_found_tasks (h : Hook) (st : Stores) (b : Val) (E D : Obj)
    (hb : h.forBoard b = true) (hi : (D.get "id").truthy = true)
    (hE : st.task.tasks.find? (fun t => (t.get "id").strictEq (D.get "id")) = some E) :
    (onTaskUpdated h st ⟨b, some D⟩).task.tasks
      = st.task.tasks.map (fun t =>
          if (t.get "id").strictEq (D.get "id") then mergePush E D else t) := by
  rw [onTaskUpdated_found h st b E D hb hi hE]
  rfl

/-- The `task_updated` handler writes the task list only. -/
theorem onTaskUpdated_frame (h : Hook) (st : Stores) (ev : TaskEvent) :
    (onTaskUpdated h st ev).card = st.card ∧
    (onTaskUpdated h st ev).task.loading = st.task.loading ∧
    (onTaskUpdated h st ev).task.error = st.task.error := by
  unfold onTaskUpdated
  split_ifs
  · cases ev.task with
    | none => exact ⟨rfl, rfl, rfl⟩
    | some task =>
      simp only
      split_ifs
      · cases st.task.tasks.find? (fun t => (t.get "id").strictEq (task.get "id")) <;>
          exact ⟨rfl, rfl, rfl⟩
      · exact ⟨rfl, rfl, rfl⟩
  · exact ⟨rfl, rfl, rfl⟩

/-- A `task_updated` push for another board, or one whose task has no identifier,
changes nothing. -/
theorem onTaskUpdated_ignored (h : Hook) (st : Stores) (b : Val) (D : Obj)
    (hno : ¬ (h.forBoard b = true ∧ (D.get "id").truthy = true)) :
    onTaskUpdated h st ⟨b, some D⟩ = st := by
  unfold onTaskUpdated
  by_cases hb : h.forBoard b = true
  · have hi : ¬ (D.get "id").truthy = true := fun hi => hno ⟨hb, hi⟩
    simp [hb, hi]
  · simp [hb]

/-! ## Algebra of the two merges -/

theorem Val.or_self (a : Val) : a.or a = a := by
  unfold Val.or; split_ifs <;> rfl

theorem Val.or_or_left (a b : Val) : a.or (a.or b) = a.or b := by
  unfold Val.or; split_ifs <;> rfl

theorem Val.undefined_or (b : Val) : Val.undefined.or b = b := by
  simp [Val.or, Val.truthy]

theorem Obj.get_eq_undefined_or_has (o : Obj) (k : String) :
    o.get k = .undefined ∨ o.has k = true := by
  by_cases h : o.has k = true
  · exact Or.inr h
  · exact Or.inl (Obj.get_of_not_has o k (by simpa using h))

theorem Obj.get_single (k : String) (v : Val) (k' : String) :
    Obj.get [(k, v)] k' = if k = k' then v else .undefined := by
  simp [Obj.get, Obj.has]

theorem Obj.has_single (k : String) (v : Val) (k' : String) :
    Obj.has [(k, v)] k' = (k == k') := by
  simp [Obj.has]

/-- Merging a payload that carries nothing but the identifier changes no field. -/
theorem mergePush_id_only (E : Obj) (i : Val) (hE : E.get "id" = i) :
    Obj.Same (mergePush E [("id", i)]) E := by
  intro k
  rw [mergePush_get]
  simp only [Obj.get_single, Obj.has_single]
  by_cases hk : "id" = k
  · subst hk; simp [hE]
  · simp [hk]

/-- Merging the same payload a second time changes no field. -/
theorem mergePush_idem (E D : Obj) : Obj.Same (mergePush (mergePush E D) D) (mergePush E D) := by
  intro k
  simp only [mergePush_get]
  split_ifs <;> rfl

/-- Merging the same response a second time changes no field. -/
theorem mergeResponse_idem (E U : Obj) :
    Obj.Same (mergeResponse (mergeResponse E U) U) (mergeResponse E U) := by
  intro k
  simp only [mergeResponse_get]
  split_ifs
  · exact Val.or_or_left _ _
  · rfl
  · rfl

/-- Two payloads that agree on the fields both carry can be merged in either
order. -/
theorem mergePush_comm (E D1 D2 : Obj)
    (hagree : ∀ k, D1.has k = true → D2.has k = true → D1.get k = D2.get k) :
    Obj.Same (mergePush (mergePush E D1) D2) (mergePush (mergePush E D2) D1) := by
  intro k
  have h1 := Obj.get_eq_undefined_or_has D1 k
  have h2 := Obj.get_eq_undefined_or_has D2 k
  have h12 := hagree k
  simp only [mergePush_get]
  by_cases c1 : D1.has k = true <;> by_cases c2 : D2.has k = true
  · have e := h12 c1 c2
    split_ifs <;> simp_all
  · have e2 : D2.get k = .undefined := Obj.get_of_not_has D2 k (by simpa using c2)
    split_ifs <;> simp_all
  · have e1 : D1.get k = .undefined := Obj.get_of_not_has D1 k (by simpa using c1)
    split_ifs <;> simp_all
  · have e1 : D1.get k = .undefined := Obj.get_of_not_has D1 k (by simpa using c1)
    have e2 : D2.get k = .undefined := Obj.get_of_not_has D2 k (by simpa using c2)
    split_ifs <;> simp_all

/-- The push merge and the response merge of one delta end in the same fields in
either order. -/
theorem merges_converge (E D : Obj) :
    Obj.Same (mergeResponse (mergePush E D) D) (mergePush (mergeResponse E D) D) := by
  intro k
  simp only [mergePush_get, mergeResponse_get]
  by_cases hu : D.get k = .undefined
  · split_ifs <;> simp_all [Val.undefined_or]
  · split_ifs <;> simp_all [Val.or_self]

/-- The same when the response's cardId was overwritten with the target card
`B`, for a delta that carries no other cardId than `B`. -/
theorem merges_converge_target (E D : Obj) (B : Val)
    (hB : D.has "cardId" = true → D.get "cardId" = B) :
    Obj.Same (mergeResponse (mergePush E D) (D.set "cardId" B))
      (mergePush (mergeResponse E (D.set "cardId" B)) D) := by
  intro k
  simp only [mergePush_get, mergeResponse_get, Obj.get_set, Obj.has_set]
  by_cases hk : "cardId" = k
  · subst hk
    by_cases hc : D.has "cardId" = true
    · simp [hc, hB hc]
    · simp [hc]
  · have hk' : ("cardId" == k) = false := by simpa using hk
    simp only [if_neg hk, hk', Bool.or_false]
    by_cases hu : D.get k = .undefined
    · split_ifs <;> simp_all [Val.undefined_or]
    · split_ifs <;> simp_all [Val.or_self]

/-! ## An empty delta -/

/-- C12, as stated, fails: the task store holds two tasks with identifier `t1`,
titled 'A' (position 0) and 'B' (position 1).  The `task_updated` push carrying
`{id: 't1'}` finds the first and writes it over both: the second task is titled
'A' at position 0 afterwards.  And on the store holding the single task `t1` the
list afterwards is not the list before: the stored task has gained the field
`assignedTo` (holding `undefined`), which it did not have. -/
theorem empty_delta_rewrites_duplicate_counterexample :
    storesDup.task.tasks.map (fun t => (t.get "id", t.get "title", t.get "position"))
      = [(.str "t1", .str "A", .num 0), (.str "t1", .str "B", .num 1)] ∧
    (onTaskUpdated hookB1 storesDup ⟨.str "b1", some [("id", .str "t1")]⟩).task.tasks.map
        (fun t => (t.get "id", t.get "title", t.get "position"))
      = [(.str "t1", .str "A", .num 0), (.str "t1", .str "A", .num 0)] ∧
    ¬ SameEntities storesDup.task.tasks
        (onTaskUpdated hookB1 storesDup ⟨.str "b1", some [("id", .str "t1")]⟩).task.tasks ∧
    (onTaskUpdated hookB1 storesT1 ⟨.str "b1", some [("id", .str "t1")]⟩).task.tasks
      ≠ storesT1.task.tasks ∧
    storesT1.task.tasks.map (fun t => t.has "assignedTo") = [false] ∧
    (onTaskUpdated hookB1 storesT1 ⟨.str "b1", some [("id", .str "t1")]⟩).task.tasks.map
        (fun t => (t.has "assignedTo", t.get "assignedTo")) = [(true, .undefined)] := by
  refine ⟨by decide, by decide, ?_, by decide, by decide, by decide⟩
  intro hsame
  have e : (onTaskUpdated hookB1 storesDup ⟨.str "b1", some [("id", .str "t1")]⟩).task.tasks
      = [mergePush dupA [("id", .str "t1")], mergePush dupA [("id", .str "t1")]] := by
    decide
  rw [e] at hsame
  have h2 : Obj.Same dupA (mergePush dupA [("id", .str "t1")]) ∧
      Obj.Same dupB (mergePush dupA [("id", .str "t1")]) := by
    simpa [SameEntities, storesDup] using hsame
  exact absurd (h2.2 "title") (by decide)

/-- C12, amended. A `task_updated` push whose task carries nothing but the
identifier `i` of the stored task `E`, the only stored task with that identifier,
leaves the task store as it was to every read: as many tasks in
the same order, each with the same value for every field, and the same `loading`
and `error`; the card store is untouched.  Likewise `updateCardDirect(id, {})`
leaves the card store unchanged. -/
theorem empty_delta_changes_nothing (h : Hook) (st : Stores) (b i : Val) (E : Obj)
    (cs : CardState) (cardId : Val)
    (hE : st.task.tasks.find? (fun t => (t.get "id").strictEq i) = some E)
    (honly : ∀ u ∈ st.task.tasks, u.get "id" = i → u = E) :
    (SameEntities st.task.tasks (onTaskUpdated h st ⟨b, some [("id", i)]⟩).task.tasks ∧
      (onTaskUpdated h st ⟨b, some [("id", i)]⟩).task.loading = st.task.loading ∧
      (onTaskUpdated h st ⟨b, some [("id", i)]⟩).task.error = st.task.error ∧
      (onTaskUpdated h st ⟨b, some [("id", i)]⟩).card = st.card) ∧
    updateCardDirect cs cardId [] = cs := by
  have hD : Obj.get [("id", i)] "id" = i := by simp [Obj.get_single]
  have hEid : E.get "id" = i := by
    have := List.find?_some hE
    simpa [Val.strictEq] using this
  have hfr := onTaskUpdated_frame h st ⟨b, some [("id", i)]⟩
  refine ⟨⟨?_, hfr.2.1, hfr.2.2, hfr.1⟩, ?_⟩
  · by_cases hok : h.forBoard b = true ∧ (Obj.get [("id", i)] "id").truthy = true
    · rw [onTaskUpdated_found_tasks h st b E [("id", i)] hok.1 hok.2
        (by rw [hD]; exact hE), hD]
      apply sameEntities_replace_self
      intro u hu hui
      rw [honly u hu hui]
      exact Obj.same_symm (mergePush_id_only E i hEid)
    · rw [onTaskUpdated_ignored h st b _ hok]
      exact sameEntities_refl _
  · cases cs with
    | mk cards loading error =>
      simp only [updateCardDirect, Obj.spread, List.foldl, ite_self, List.map_id']

/-- C12, amended, on the store holding only `t1`: the push carries `{id: 't1'}`. -/
theorem empty_delta_changes_nothing_witness :
    (storesT1.task.tasks.find? (fun t => (t.get "id").strictEq (.str "t1")) = some taskT1 ∧
      (∀ u ∈ storesT1.task.tasks, u.get "id" = Val.str "t1" → u = taskT1)) ∧
    ((SameEntities storesT1.task.tasks
        (onTaskUpdated hookB1 storesT1 ⟨.str "b1", some [("id", .str "t1")]⟩).task.tasks ∧
      (onTaskUpdated hookB1 storesT1 ⟨.str "b1", some [("id", .str "t1")]⟩).task.loading
        = storesT1.task.loading ∧
      (onTaskUpdated hookB1 storesT1 ⟨.str "b1", some [("id", .str "t1")]⟩).task.error
        = storesT1.task.error ∧
      (onTaskUpdated hookB1 storesT1 ⟨.str "b1", some [("id", .str "t1")]⟩).card
        = storesT1.card) ∧
    updateCardDirect storesC1.card (.str "c1") [] = storesC1.card) :=
  ⟨⟨by decide, by decide⟩,
   empty_delta_changes_nothing hookB1 storesT1 (.str "b1") (.str "t1") taskT1 storesC1.card
     (.str "c1") (by decide) (by decide)⟩

/-! ## Two pushes, one push twice -/

theorem mergePush_id (E D : Obj) (h : (D.get "id").truthy = true) :
    (mergePush E D).get "id" = D.get "id" :=
  mergePush_get_present E D "id" (Val.ne_undefined_of_truthy _ h)

/-- The task list after two `task_updated` pushes for the same stored task. -/
theorem onTaskUpdated_twice_tasks (h : Hook) (st : Stores) (b i : Val) (E D1 D2 : Obj)
    (hb : h.forBoard b = true) (hi : i.truthy = true)
    (h1 : D1.get "id" = i) (h2 : D2.get "id" = i)
    (hE : st.task.tasks.find? (fun t => (t.get "id").strictEq i) = some E) :
    (onTaskUpdated h (onTaskUpdated h st ⟨b, some D1⟩) ⟨b, some D2⟩).task.tasks
      = st.task.tasks.map (fun t =>
          if (t.get "id").strictEq i then mergePush (mergePush E D1) D2 else t) := by
  have hi1 : (D1.get "id").truthy = true := by rw [h1]; exact hi
  have hi2 : (D2.get "id").truthy = true := by rw [h2]; exact hi
  have hM : (mergePush E D1).get "id" = i := by rw [mergePush_id E D1 hi1, h1]
  have t1 := onTaskUpdated_found_tasks h st b E D1 hb hi1 (by rw [h1]; exact hE)
  rw [h1] at t1
  have hfind := find_after_replace i E (mergePush E D1) st.task.tasks hE hM
  rw [← t1] at hfind
  rw [onTaskUpdated_found_tasks h _ b (mergePush E D1) D2 hb hi2 (by rw [h2]; exact hfind),
    h2, t1, map_replace_twice i _ _ _ hM]

/-- C13. Two `task_updated` pushes for the current board carry the identifier `i`
of the stored task `E` and otherwise disjoint sets of fields.  Handling `D1` then
`D2` leaves the same task list, field by field, as handling `D2` then `D1`. -/
theorem disjoint_deltas_commute (h : Hook) (st : Stores) (b i : Val) (E D1 D2 : Obj)
    (hb : h.forBoard b = true) (hi : i.truthy = true)
    (h1 : D1.get "id" = i) (h2 : D2.get "id" = i)
    (hE : st.task.tasks.find? (fun t => (t.get "id").strictEq i) = some E)
    (hdisj : ∀ k, k ≠ "id" → ¬ (D1.has k = true ∧ D2.has k = true)) :
    SameEntities
      (onTaskUpdated h (onTaskUpdated h st ⟨b, some D1⟩) ⟨b, some D2⟩).task.tasks
      (onTaskUpdated h (onTaskUpdated h st ⟨b, some D2⟩) ⟨b, some D1⟩).task.tasks := by
  rw [onTaskUpdated_twice_tasks h st b i E D1 D2 hb hi h1 h2 hE,
    onTaskUpdated_twice_tasks h st b i E D2 D1 hb hi h2 h1 hE]
  apply sameEntities_replace
  apply mergePush_comm
  intro k hk1 hk2
  by_cases hk : k = "id"
  · subst hk; rw [h1, h2]
  · exact absurd ⟨hk1, hk2⟩ (hdisj k hk)

/-- C13, on the store holding `t1`: one push changes the priority, the other the
card and the position. -/
theorem disjoint_deltas_commute_witness :
    (hookB1.forBoard (.str "b1") = true ∧
      storesT1.task.tasks.find? (fun t => (t.get "id").strictEq (.str "t1")) = some taskT1 ∧
      (∀ k, k ≠ "id" →
        ¬ (Obj.has [("id", .str "t1"), ("priority", .str "low")] k = true ∧
           deltaT1.has k = true))) ∧
    SameEntities
      (onTaskUpdated hookB1
        (onTaskUpdated hookB1 storesT1
          ⟨.str "b1", some [("id", .str "t1"), ("priority", .str "low")]⟩)
        ⟨.str "b1", some deltaT1⟩).task.tasks
      (onTaskUpdated hookB1
        (onTaskUpdated hookB1 storesT1 ⟨.str "b1", some deltaT1⟩)
        ⟨.str "b1", some [("id", .str "t1"), ("priority", .str "low")]⟩).task.tasks :=
  have hdisj : ∀ k, k ≠ "id" →
      ¬ (Obj.has [("id", .str "t1"), ("priority", .str "low")] k = true ∧
         deltaT1.has k = true) := by
    intro k hk
    simp only [Obj.has, deltaT1, Bool.or_false, Bool.or_eq_true, beq_iff_eq]
    rintro ⟨h1 | h1, h2 | h2 | h2⟩ <;> subst h1 <;> simp_all
  ⟨⟨by decide, by decide, hdisj⟩,
   disjoint_deltas_commute hookB1 storesT1 (.str "b1") (.str "t1") taskT1
     [("id", .str "t1"), ("priority", .str "low")] deltaT1
     (by decide) (by decide) (by decide) (by decide) (by decide) hdisj⟩

theorem onTaskUpdated_not_found (h : Hook) (st : Stores) (b : Val) (D : Obj)
    (hb : h.forBoard b = true) (hi : (D.get "id").truthy = true)
    (hE : st.task.tasks.find? (fun t => (t.get "id").strictEq (D.get "id")) = none) :
    onTaskUpdated h st ⟨b, some D⟩ = st := by
  simp only [onTaskUpdated, hb, hi, if_true, hE, updateTaskDirect,
    map_replace_of_find_none (D.get "id") D st.task.tasks hE]

theorem updateTaskConfirmed_tasks_some (s : TaskState) (cardId i : Val) (taskData D E : Obj)
    (hE : s.tasks.find? (fun t => (t.get "id").strictEq i) = some E) :
    (updateTaskConfirmed s cardId i taskData D).tasks
      = s.tasks.map (fun t =>
          if (t.get "id").strictEq i then mergeResponse E (overrideCardId cardId taskData D)
          else t) := by
  simp only [updateTaskConfirmed, hE]

theorem updateTaskConfirmed_tasks_none (s : TaskState) (cardId i : Val) (taskData D : Obj)
    (hE : s.tasks.find? (fun t => (t.get "id").strictEq i) = none) :
    (updateTaskConfirmed s cardId i taskData D).tasks = s.tasks := by
  simp only [updateTaskConfirmed, hE]
  exact map_replace_of_find_none i _ s.tasks hE

/-- C14. Handling a `task_updated` event twice leaves the same task store as
handling it once: as many tasks, each with the same value for every field, the
same `loading` and `error`, the same card store.  The merge `updateTask` applies to
a response is idempotent in the same sense, on one task and on the task list. -/
theorem reconciliation_idempotent (h : Hook) (st : Stores) (ev : TaskEvent) (E U : Obj)
    (s : TaskState) (cardId taskId : Val) (taskData response : Obj) :
    (SameEntities (onTaskUpdated h st ev).task.tasks
        (onTaskUpdated h (onTaskUpdated h st ev) ev).task.tasks ∧
      (onTaskUpdated h (onTaskUpdated h st ev) ev).task.loading
        = (onTaskUpdated h st ev).task.loading ∧
      (onTaskUpdated h (onTaskUpdated h st ev) ev).task.error
        = (onTaskUpdated h st ev).task.error ∧
      (onTaskUpdated h (onTaskUpdated h st ev) ev).card = (onTaskUpdated h st ev).card) ∧
    Obj.Same (mergeResponse (mergeResponse E U) U) (mergeResponse E U) ∧
    SameEntities (updateTaskConfirmed s cardId taskId taskData response).tasks
      (updateTaskConfirmed (updateTaskConfirmed s cardId taskId taskData response)
        cardId taskId taskData response).tasks := by
  have hfr := onTaskUpdated_frame h (onTaskUpdated h st ev) ev
  refine ⟨⟨?_, hfr.2.1, hfr.2.2, hfr.1⟩, mergeResponse_idem E U, ?_⟩
  · obtain ⟨b, task⟩ := ev
    by_cases hb : h.forBoard b = true
    · cases task with
      | none =>
        have e : onTaskUpdated h st ⟨b, none⟩ = st := by simp [onTaskUpdated]
        rw [e, e]; exact sameEntities_refl _
      | some D =>
        by_cases hi : (D.get "id").truthy = true
        · cases hE : st.task.tasks.find? (fun t => (t.get "id").strictEq (D.get "id")) with
          | none =>
            have e := onTaskUpdated_not_found h st b D hb hi hE
            rw [e, e]; exact sameEntities_refl _
          | some T =>
            rw [onTaskUpdated_twice_tasks h st b (D.get "id") T D D hb hi rfl rfl hE,
              onTaskUpdated_found_tasks h st b T D hb hi hE]
            exact sameEntities_replace _ _ _ _ (Obj.same_symm (mergePush_idem T D))
        · have e : onTaskUpdated h st ⟨b, some D⟩ = st := by simp [onTaskUpdated, hi]
          rw [e, e]; exact sameEntities_refl _
    · have e : onTaskUpdated h st ⟨b, task⟩ = st := by simp [onTaskUpdated, hb]
      rw [e, e]; exact sameEntities_refl _
  · cases hE : s.tasks.find? (fun t => (t.get "id").strictEq taskId) with
    | none =>
      have e1 := updateTaskConfirmed_tasks_none s cardId taskId taskData response hE
      have hE' : (updateTaskConfirmed s cardId taskId taskData response).tasks.find?
          (fun t => (t.get "id").strictEq taskId) = none := by rw [e1]; exact hE
      rw [updateTaskConfirmed_tasks_none _ cardId taskId taskData response hE']
      exact sameEntities_refl _
    | some T =>
      have e1 := updateTaskConfirmed_tasks_some s cardId taskId taskData response T hE
      by_cases hF : (mergeResponse T (overrideCardId cardId taskData response)).get "id" = taskId
      · have hfind := find_after_replace taskId T _ s.tasks hE hF
        rw [← e1] at hfind
        rw [updateTaskConfirmed_tasks_some _ cardId taskId taskData response _ hfind, e1,
          map_replace_twice taskId _ _ _ hF]
        exact sameEntities_replace _ _ _ _ (Obj.same_symm (mergeResponse_idem T _))
      · have hfind := find_none_after_replace taskId _ s.tasks hF
        rw [← e1] at hfind
        rw [updateTaskConfirmed_tasks_none _ cardId taskId taskData response hfind]
        exact sameEntities_refl _

/-! ## A push and a response for the same move -/

theorem mergeResponse_id (E U : Obj) (h : U.get "id" ≠ .undefined) :
    (mergeResponse E U).get "id" = U.get "id" := by
  rw [mergeResponse_get]
  simp [Obj.has_of_get_ne U "id" h]

theorem overrideCardId_cases (A : Val) (taskData D : Obj) :
    (overrideCardId A taskData D = D.set "cardId" (taskData.get "targetCardId") ∧
      (taskData.get "targetCardId").truthy = true ∧ taskData.get "targetCardId" ≠ A) ∨
    overrideCardId A taskData D = D := by
  unfold overrideCardId
  by_cases hc : ((taskData.get "targetCardId").truthy &&
      !(taskData.get "targetCardId").strictEq A) = true
  · left
    rw [if_pos hc]
    simp only [Bool.and_eq_true, Bool.not_eq_true', Val.strictEq, beq_eq_false_iff_ne] at hc
    exact ⟨rfl, hc.1, hc.2⟩
  · right
    rw [if_neg hc]

/-- C15, as stated, fails: `t1` is stored in card `c1` and `updateTask` is called
to move it to card `c2`; the delta, delivered as push and as response, still
names card `c1`.  The response merge overwrites the cardId with the target of the
request and the push merge does not: push first and response second leaves `t1`
in `c2`, response first and push second leaves it in `c1`. -/
theorem push_and_response_diverge_counterexample :
    movedWithinC1.get "id" = .str "t1" ∧ movedWithinC1.get "cardId" = .str "c1" ∧
    (moveTaskData taskT1 (.str "c2") (.num 0)).get "targetCardId" = .str "c2" ∧
    (updateTaskConfirmed
        (onTaskUpdated hookB1 storesT1 ⟨.str "b1", some movedWithinC1⟩).task
        (.str "c1") (.str "t1") (moveTaskData taskT1 (.str "c2") (.num 0))
        movedWithinC1).tasks.map (fun t => (t.get "id", t.get "cardId"))
      = [(.str "t1", .str "c2")] ∧
    (onTaskUpdated hookB1
        { storesT1 with
          task := updateTaskConfirmed storesT1.task (.str "c1") (.str "t1")
            (moveTaskData taskT1 (.str "c2") (.num 0)) movedWithinC1 }
        ⟨.str "b1", some movedWithinC1⟩).task.tasks.map (fun t => (t.get "id", t.get "cardId"))
      = [(.str "t1", .str "c1")] := by
  decide

/-- C15, amended. A delta `D` for the stored task `E` arrives both as the payload
of a `task_updated` push for the current board and as the response of the
`updateTask` call for the same move, and when the request names another card as
target, `D` carries that card as cardId or no cardId.  Push first and response
second leaves the same task store as response first and push second: as many
tasks, each with the same value for every field, the same `loading` and `error`. -/
theorem push_and_response_converge (h : Hook) (st : Stores) (b i A : Val)
    (E D taskData : Obj) (hD : D.get "id" = i)
    (hE : st.task.tasks.find? (fun t => (t.get "id").strictEq i) = some E)
    (hmove : (taskData.get "targetCardId").truthy = true → taskData.get "targetCardId" ≠ A →
      D.has "cardId" = true → D.get "cardId" = taskData.get "targetCardId") :
    SameEntities
      (updateTaskConfirmed (onTaskUpdated h st ⟨b, some D⟩).task A i taskData D).tasks
      (onTaskUpdated h { st with task := updateTaskConfirmed st.task A i taskData D }
        ⟨b, some D⟩).task.tasks ∧
    (updateTaskConfirmed (onTaskUpdated h st ⟨b, some D⟩).task A i taskData D).loading
      = (onTaskUpdated h { st with task := updateTaskConfirmed st.task A i taskData D }
          ⟨b, some D⟩).task.loading ∧
    (updateTaskConfirmed (onTaskUpdated h st ⟨b, some D⟩).task A i taskData D).error
      = (onTaskUpdated h { st with task := updateTaskConfirmed st.task A i taskData D }
          ⟨b, some D⟩).task.error := by
  have hfr1 := onTaskUpdated_frame h st ⟨b, some D⟩
  have hfr2 := onTaskUpdated_frame h
    { st with task := updateTaskConfirmed st.task A i taskData D } ⟨b, some D⟩
  refine ⟨?_, ?_, ?_⟩
  · by_cases hok : h.forBoard b = true ∧ (D.get "id").truthy = true
    swap
    · rw [onTaskUpdated_ignored h st b D hok, onTaskUpdated_ignored h _ b D hok]
      exact sameEntities_refl _
    have hb := hok.1
    have hiD := hok.2
    have hi : i.truthy = true := by rw [← hD]; exact hiD
    have hne : D.get "id" ≠ .undefined := Val.ne_undefined_of_truthy _ hiD
    have hM : (mergePush E D).get "id" = i := by rw [mergePush_id E D hiD, hD]
    -- push first
    have t1 := onTaskUpdated_found_tasks h st b E D hb hiD (by rw [hD]; exact hE)
    rw [hD] at t1
    have hfind1 := find_after_replace i E (mergePush E D) st.task.tasks hE hM
    rw [← t1] at hfind1
    rw [updateTaskConfirmed_tasks_some _ A i taskData D _ hfind1, t1,
      map_replace_twice i _ _ _ hM]
    -- response first
    have hUid : (overrideCardId A taskData D).get "id" = i := by
      rcases overrideCardId_cases A taskData D with ⟨e, _, _⟩ | e
      · rw [e, Obj.get_set]; simpa using hD
      · rw [e]; exact hD
    have hF : (mergeResponse E (overrideCardId A taskData D)).get "id" = i := by
      rw [mergeResponse_id E _ (by rw [hUid]; exact Val.ne_undefined_of_truthy _ hi), hUid]
    have t2 := updateTaskConfirmed_tasks_some st.task A i taskData D E hE
    have hfind2 := find_after_replace i E _ st.task.tasks hE hF
    rw [← t2] at hfind2
    rw [onTaskUpdated_found_tasks h _ b _ D hb hiD (by rw [hD]; exact hfind2), hD]
    simp only []
    rw [t2, map_replace_twice i _ _ _ hF]
    apply sameEntities_replace
    rcases overrideCardId_cases A taskData D with ⟨e, ht, hn⟩ | e
    · rw [e]
      exact merges_converge_target E D _ (hmove ht hn)
    · rw [e]
      exact merges_converge E D
  · rw [hfr2.2.1]; rfl
  · rw [hfr2.2.2]
    show (onTaskUpdated h st ⟨b, some D⟩).task.error = st.task.error
    exact hfr1.2.2

/-- C15, amended, on the store holding `t1`: the delta moves `t1` to card `c2` at
position 0. -/
theorem push_and_response_converge_witness :
    (hookB1.forBoard (.str "b1") = true ∧ movedT1.get "id" = .str "t1" ∧
      storesT1.task.tasks.find? (fun t => (t.get "id").strictEq (.str "t1")) = some taskT1 ∧
      movedT1.get "cardId" = (moveTaskData taskT1 (.str "c2") (.num 0)).get "targetCardId") ∧
    (SameEntities
      (updateTaskConfirmed (onTaskUpdated hookB1 storesT1 ⟨.str "b1", some movedT1⟩).task
        (.str "c1") (.str "t1") (moveTaskData taskT1 (.str "c2") (.num 0)) movedT1).tasks
      (onTaskUpdated hookB1
        { storesT1 with
          task := updateTaskConfirmed storesT1.task (.str "c1") (.str "t1")
            (moveTaskData taskT1 (.str "c2") (.num 0)) movedT1 }
        ⟨.str "b1", some movedT1⟩).task.tasks ∧
    (updateTaskConfirmed (onTaskUpdated hookB1 storesT1 ⟨.str "b1", some movedT1⟩).task
        (.str "c1") (.str "t1") (moveTaskData taskT1 (.str "c2") (.num 0)) movedT1).loading
      = (onTaskUpdated hookB1
          { storesT1 with
            task := updateTaskConfirmed storesT1.task (.str "c1") (.str "t1")
              (moveTaskData taskT1 (.str "c2") (.num 0)) movedT1 }
          ⟨.str "b1", some movedT1⟩).task.loading ∧
    (updateTaskConfirmed (onTaskUpdated hookB1 storesT1 ⟨.str "b1", some movedT1⟩).task
        (.str "c1") (.str "t1") (moveTaskData taskT1 (.str "c2") (.num 0)) movedT1).error
      = (onTaskUpdated hookB1
          { storesT1 with
            task := updateTaskConfirmed storesT1.task (.str "c1") (.str "t1")
              (moveTaskData taskT1 (.str "c2") (.num 0)) movedT1 }
          ⟨.str "b1", some movedT1⟩).task.error) :=
  ⟨⟨by decide, by decide, by decide, by decide⟩,
   push_and_response_converge hookB1 storesT1 (.str "b1") (.str "t1") (.str "c1") taskT1
     movedT1 (moveTaskData taskT1 (.str "c2") (.num 0))
     (by decide) (by decide) (by decide)⟩

/-! ## From a drop to the move request -/

theorem find_in_source_card (s : TaskState) (T : Obj) (hT : T ∈ s.tasks) :
    ((getTasksForCard s (T.get "cardId")).1.find?
      (fun t => (t.get "id").strictEq (T.get "id"))).isSome = true := by
  rw [List.find?_isSome]
  refine ⟨T, ?_, (Val.strictEq_iff _ _).2 rfl⟩
  simp only [getTasksForCard, tasksForCard]
  rw [mem_jsSort, List.mem_filter]
  exact ⟨hT, (Val.strictEq_iff _ _).2 rfl⟩

/-- The request `handleTaskMove` sends for a stored task named with its own card
as source. -/
theorem handleTaskMoveRequest_stored (s : TaskState) (boardId target p : Val) (T F : Obj)
    (hT : T ∈ s.tasks) (hid : (T.get "id").truthy = true)
    (hF : s.tasks.find? (fun t => (t.get "id").strictEq (T.get "id")) = some F) :
    handleTaskMoveRequest s boardId
        { taskId := T.get "id", sourceCardId := T.get "cardId", targetCardId := target,
          newPosition := p }
      = some { boardId := boardId, cardId := F.get "cardId", taskId := T.get "id",
               taskData := moveTaskData F target (calculatedPosition s target p) } := by
  have hsrc := find_in_source_card s T hT
  obtain ⟨x, hx⟩ := Option.isSome_iff_exists.1 hsrc
  simp only [handleTaskMoveRequest, hid, Bool.not_true, hx, moveTaskRequest, hF]
  rfl

theorem exists_first_with_id (l : List Obj) (T : Obj) (hT : T ∈ l) :
    ∃ F, l.find? (fun t => (t.get "id").strictEq (T.get "id")) = some F := by
  have h : (l.find? (fun t => (t.get "id").strictEq (T.get "id"))).isSome = true := by
    rw [List.find?_isSome]
    exact ⟨T, hT, (Val.strictEq_iff _ _).2 rfl⟩
  exact Option.isSome_iff_exists.1 h

theorem moveTaskData_position (T : Obj) (B p : Val) :
    (moveTaskData T B p).get "position" = p := by
  simp [moveTaskData, Obj.get, Obj.has]

theorem dragItem_reads (T : Obj) (hid : (T.get "id").truthy = true) :
    (dragItem T).get "type" = .str "task" ∧ (dragItem T).get "taskId" = T.get "id" ∧
    (dragItem T).get "sourceCardId" = T.get "cardId" ∧
    (dragItem T).get "position" = positionOr0 T := by
  simp [dragItem, Obj.get, Obj.has, Val.or, hid, positionOr0]

theorem dragEnd_dragItem (T d : Obj) (hid : (T.get "id").truthy = true)
    (hd : d.get "type" = .str "task-drop") :
    dragEnd (dragItem T) (some d)
      = some { taskId := T.get "id", sourceCardId := T.get "cardId",
               targetCardId := d.get "cardId",
               newPosition :=
                 if d.get "position" != .undefined then d.get "position" else positionOr0 T } := by
  obtain ⟨_, h2, h3, h4⟩ := dragItem_reads T hid
  simp only [dragEnd, hd, h2, h3, h4, Val.strictEq, beq_self_eq_true, if_true]

theorem columnDrop_dragItem (s : TaskState) (card T : Obj) (hid : (T.get "id").truthy = true) :
    columnDrop s card (dragItem T)
      = some [("cardId", card.get "id"), ("type", .str "task-drop"),
              ("position", .num (getTasksForCard s (card.get "id")).1.length)] := by
  obtain ⟨h1, _, _, _⟩ := dragItem_reads T hid
  simp only [columnDrop, h1, Val.strictEq, beq_self_eq_true, if_true]

theorem calculatedPosition_given (s : TaskState) (target p : Val) (hp : p ≠ .undefined) :
    calculatedPosition s target p = p := by
  simp [calculatedPosition, hp]

theorem dropRequest_stored (s : TaskState) (boardId : Val) (task card : Obj)
    (hid : (task.get "id").truthy = true) :
    dropRequest s boardId task card
      = handleTaskMoveRequest s boardId
          { taskId := task.get "id", sourceCardId := task.get "cardId",
            targetCardId := card.get "id",
            newPosition := .num (getTasksForCard s (card.get "id")).1.length } := by
  simp only [dropRequest, columnDrop_dragItem s card task hid]
  rw [dragEnd_dragItem task _ hid (by simp [Obj.get, Obj.has])]
  simp [Obj.get, Obj.has]

/-- C16. A stored task is dragged and dropped on the column of a card: a move
request is made, and it carries as position the number of tasks `getTasksForCard`
returns for that card at that moment, the card as target and the task's
identifier.  And `handleTaskMove`, called for the task without a position,
computes that same count for its target and sends it as the position. -/
theorem drop_request_position (s : TaskState) (boardId target : Val) (task card : Obj)
    (hT : task ∈ s.tasks) (hid : (task.get "id").truthy = true) :
    (∃ req, dropRequest s boardId task card = some req ∧
      req.taskData.get "position" = .num (getTasksForCard s (card.get "id")).1.length ∧
      req.taskData.get "targetCardId" = card.get "id" ∧ req.taskId = task.get "id") ∧
    (columnDrop s card (dragItem task)).map (fun d => d.get "position")
      = some (.num (getTasksForCard s (card.get "id")).1.length) ∧
    calculatedPosition s target .undefined = .num (getTasksForCard s target).1.length ∧
    (∃ req, handleTaskMoveRequest s boardId
        { taskId := task.get "id", sourceCardId := task.get "cardId",
          targetCardId := target, newPosition := .undefined } = some req ∧
      req.taskData.get "position" = .num (getTasksForCard s target).1.length ∧
      req.taskData.get "targetCardId" = target) := by
  obtain ⟨F, hF⟩ := exists_first_with_id s.tasks task hT
  refine ⟨?_, ?_, ?_, ?_⟩
  · refine ⟨_, (dropRequest_stored s boardId task card hid).trans
      (handleTaskMoveRequest_stored s boardId _ _ task F hT hid hF), ?_, ?_, rfl⟩
    · rw [moveTaskData_position, calculatedPosition_given _ _ _ (by simp)]
    · rw [moveTaskData_target]
  · rw [columnDrop_dragItem s card task hid]
    simp [Obj.get, Obj.has]
  · simp [calculatedPosition]
  · refine ⟨_, handleTaskMoveRequest_stored s boardId target .undefined task F hT hid hF, ?_, ?_⟩
    · rw [moveTaskData_position]
      simp [calculatedPosition]
    · rw [moveTaskData_target]

/-- C16, on the store where card `c2` holds one task: `t1` is dropped on `c2`, and
the request carries position 1. -/
theorem drop_request_position_witness :
    (taskT1 ∈ tasksTwoCards.tasks ∧ (taskT1.get "id").truthy = true) ∧
    (getTasksForCard tasksTwoCards (.str "c2")).1.length = 1 ∧
    (dropRequest tasksTwoCards (.str "b1") taskT1 cardC2).map
        (fun req => (req.taskId, req.taskData.get "targetCardId", req.taskData.get "position"))
      = some (.str "t1", .str "c2", .num 1) ∧
    ((∃ req, dropRequest tasksTwoCards (.str "b1") taskT1 cardC2 = some req ∧
      req.taskData.get "position"
        = .num (getTasksForCard tasksTwoCards (cardC2.get "id")).1.length ∧
      req.taskData.get "targetCardId" = cardC2.get "id" ∧ req.taskId = taskT1.get "id") ∧
    (columnDrop tasksTwoCards cardC2 (dragItem taskT1)).map (fun d => d.get "position")
      = some (.num (getTasksForCard tasksTwoCards (cardC2.get "id")).1.length) ∧
    calculatedPosition tasksTwoCards (.str "c2") .undefined
      = .num (getTasksForCard tasksTwoCards (.str "c2")).1.length ∧
    (∃ req, handleTaskMoveRequest tasksTwoCards (.str "b1")
        { taskId := taskT1.get "id", sourceCardId := taskT1.get "cardId",
          targetCardId := .str "c2", newPosition := .undefined } = some req ∧
      req.taskData.get "position"
        = .num (getTasksForCard tasksTwoCards (.str "c2")).1.length ∧
      req.taskData.get "targetCardId" = .str "c2")) :=
  ⟨⟨by decide, by decide⟩, by decide, by decide,
   drop_request_position tasksTwoCards (.str "b1") (.str "c2") taskT1 cardC2
     (by decide) (by decide)⟩

/-! ## Moving a task to the index it already has -/

/-- The task store after `handleTaskMove` for a stored task named with its own
card as source. -/
theorem handleTaskMove_stored (s : TaskState) (boardId target p : Val) (T : Obj)
    (r : Remote Obj) (hT : T ∈ s.tasks) (hid : (T.get "id").truthy = true) :
    handleTaskMove s boardId
        { taskId := T.get "id", sourceCardId := T.get "cardId", targetCardId := target,
          newPosition := p } r
      = moveTask s boardId (T.get "id") target (calculatedPosition s target p) r := by
  have hsrc := find_in_source_card s T hT
  obtain ⟨x, hx⟩ := Option.isSome_iff_exists.1 hsrc
  simp only [handleTaskMove, hid, Bool.not_true, hx]
  rfl

theorem overrideCardId_same_card (A : Val) (taskData D : Obj)
    (h : taskData.get "targetCardId" = A) : overrideCardId A taskData D = D := by
  simp [overrideCardId, h, Val.strictEq]

/-- C17, as stated, fails: `t1` is the task at index 0 of `getTasksForCard('c1')`;
the move intent (`t1`, `c1`, `c1`, 0) leads to an `updateTask` request, and once
the server has answered with position 0 the stored position of `t1` is 0 instead
of 2. -/
theorem move_to_own_index_counterexample :
    (getTasksForCard storesC1.task (.str "c1")).1[0]? = some taskT1 ∧
    handleTaskMoveRequest storesC1.task (.str "b1")
        { taskId := .str "t1", sourceCardId := .str "c1", targetCardId := .str "c1",
          newPosition := .num 0 }
      = some { boardId := .str "b1", cardId := .str "c1", taskId := .str "t1",
               taskData := moveTaskData taskT1 (.str "c1") (.num 0) } ∧
    storesC1.task.tasks.map (fun t => t.get "position") = [.num 2] ∧
    (handleTaskMove storesC1.task (.str "b1")
        { taskId := .str "t1", sourceCardId := .str "c1", targetCardId := .str "c1",
          newPosition := .num 0 } (.ok movedWithinC1)).tasks.map (fun t => t.get "position")
      = [.num 0] := by
  decide

/-- C17, amended. The task `T` sits at index `k` of `getTasksForCard(A)`.  The move
intent (`T`, `A`, `A`, `k`) is handled like any other move: `handleTaskMove` sends
the `updateTask` request for `T` with target card `A` and position `k`, and on
confirmation every stored task with `T`'s identifier becomes the merge of `T` with
the response (the response's cardId is not overwritten, the target being the
source card), the other tasks staying as they were. -/
theorem move_to_own_index_is_sent (s : TaskState) (boardId A : Val) (k : Nat) (T D : Obj)
    (hk : (getTasksForCard s A).1[k]? = some T) (hid : (T.get "id").truthy = true)
    (hfirst : s.tasks.find? (fun t => (t.get "id").strictEq (T.get "id")) = some T) :
    handleTaskMoveRequest s boardId
        { taskId := T.get "id", sourceCardId := A, targetCardId := A, newPosition := .num k }
      = some { boardId := boardId, cardId := A, taskId := T.get "id",
               taskData := moveTaskData T A (.num k) } ∧
    (handleTaskMove s boardId
        { taskId := T.get "id", sourceCardId := A, targetCardId := A, newPosition := .num k }
        (.ok D)).tasks
      = s.tasks.map (fun t =>
          if (t.get "id").strictEq (T.get "id") then mergeResponse T D else t) := by
  have hmem : T ∈ (getTasksForCard s A).1 := List.getElem?_mem hk
  simp only [getTasksForCard, tasksForCard] at hmem
  rw [mem_jsSort, List.mem_filter] at hmem
  obtain ⟨hT, hA⟩ := hmem
  have hA' : T.get "cardId" = A := (Val.strictEq_iff _ _).1 hA
  subst hA'
  constructor
  · rw [handleTaskMoveRequest_stored s boardId _ _ T T hT hid hfirst,
      calculatedPosition_given _ _ _ (by simp)]
  · rw [handleTaskMove_stored s boardId _ _ T _ hT hid,
      moveTask_ok_eq_updateTask s boardId _ _ _ T D hfirst]
    simp only [updateTask]
    rw [updateTaskConfirmed_tasks_some s.start _ _ _ D T hfirst,
      overrideCardId_same_card _ _ D (moveTaskData_target T _ _)]
    rfl

/-- C17, amended, on the store holding `t1` in card `c1`. -/
theorem move_to_own_index_is_sent_witness :
    ((getTasksForCard storesC1.task (.str "c1")).1[0]? = some taskT1 ∧
      (taskT1.get "id").truthy = true ∧
      storesC1.task.tasks.find? (fun t => (t.get "id").strictEq (taskT1.get "id"))
        = some taskT1) ∧
    (handleTaskMoveRequest storesC1.task (.str "b1")
        { taskId := taskT1.get "id", sourceCardId := .str "c1", targetCardId := .str "c1",
          newPosition := .num (0 : Nat) }
      = some { boardId := .str "b1", cardId := .str "c1", taskId := taskT1.get "id",
               taskData := moveTaskData taskT1 (.str "c1") (.num (0 : Nat)) } ∧
    (handleTaskMove storesC1.task (.str "b1")
        { taskId := taskT1.get "id", sourceCardId := .str "c1", targetCardId := .str "c1",
          newPosition := .num (0 : Nat) } (.ok movedWithinC1)).tasks
      = storesC1.task.tasks.map (fun t =>
          if (t.get "id").strictEq (taskT1.get "id") then mergeResponse taskT1 movedWithinC1
          else t)) :=
  ⟨⟨by decide, by decide, by decide⟩,
   move_to_own_index_is_sent storesC1.task (.str "b1") (.str "c1") 0 taskT1 movedWithinC1
     (by decide) (by decide) (by decide)⟩

/-! ## A target index beyond the end of the target card -/

/-- C18, as stated, fails: card `c2` holds one task and `t1` is moved to `c2` at
index 99; the request carries position 99. -/
theorem move_beyond_end_counterexample :
    (getTasksForCard tasksTwoCards (.str "c2")).1.length = 1 ∧
    (handleTaskMoveRequest tasksTwoCards (.str "b1")
        { taskId := .str "t1", sourceCardId := .str "c1", targetCardId := .str "c2",
          newPosition := .num 99 }).map (fun req => req.taskData.get "position")
      = some (.num 99) := by
  decide

/-- C18, amended. The position sent in the move request for a stored task is the
target index the intent names, whatever the number of tasks in the target card:
no clamping takes place. -/
theorem move_position_not_clamped (s : TaskState) (boardId target : Val) (n : Int) (T : Obj)
    (hT : T ∈ s.tasks) (hid : (T.get "id").truthy = true) :
    ∃ req, handleTaskMoveRequest s boardId
        { taskId := T.get "id", sourceCardId := T.get "cardId", targetCardId := target,
          newPosition := .num n } = some req ∧
      req.taskData.get "position" = .num n ∧
      req.taskData.get "targetCardId" = target := by
  obtain ⟨F, hF⟩ := exists_first_with_id s.tasks T hT
  refine ⟨_, handleTaskMoveRequest_stored s boardId target (.num n) T F hT hid hF, ?_, ?_⟩
  · rw [moveTaskData_position, calculatedPosition_given _ _ _ (by simp)]
  · rw [moveTaskData_target]

/-- C18, amended, on the store where card `c2` holds one task. -/
theorem move_position_not_clamped_witness :
    (taskT1 ∈ tasksTwoCards.tasks ∧ (taskT1.get "id").truthy = true ∧
      ((getTasksForCard tasksTwoCards (.str "c2")).1.length : Int) < 99) ∧
    ∃ req, handleTaskMoveRequest tasksTwoCards (.str "b1")
        { taskId := taskT1.get "id", sourceCardId := taskT1.get "cardId",
          targetCardId := .str "c2", newPosition := .num 99 } = some req ∧
      req.taskData.get "position" = .num 99 ∧
      req.taskData.get "targetCardId" = .str "c2" :=
  ⟨⟨by decide, by decide, by decide⟩,
   move_position_not_clamped tasksTwoCards (.str "b1") (.str "c2") 99 taskT1
     (by decide) (by decide)⟩

/-! ## What a confirmed move leaves alone -/

theorem forall₂_replace_others (i : Val) (F : Obj) (l : List Obj) :
    List.Forall₂ (fun old new => old.get "id" ≠ i → new = old) l
      (l.map (fun t => if (t.get "id").strictEq i then F else t)) := by
  rw [List.forall₂_map_right_iff]
  apply List.forall₂_same.2
  intro t _ ht
  have hc : ¬ (t.get "id").strictEq i = true := fun hh => ht ((Val.strictEq_iff _ _).1 hh)
  rw [if_neg hc]

theorem updateTask_ok_frame (s : TaskState) (boardId cardId i : Val) (taskData D : Obj) :
    (updateTask s boardId cardId i taskData (.ok D)).tasks.length = s.tasks.length ∧
    List.Forall₂ (fun old new => old.get "id" ≠ i → new = old) s.tasks
      (updateTask s boardId cardId i taskData (.ok D)).tasks := by
  simp only [updateTask, updateTaskConfirmed, TaskState.start, List.length_map, true_and]
  exact forall₂_replace_others i _ s.tasks

/-- C19. A confirmed `updateTask` / `moveTask` of the task with identifier `i`
keeps the length and the order of the store's task list and leaves every stored
task with another identifier exactly as it was: no sibling is renumbered. -/
theorem move_touches_only_moved_task (s : TaskState) (boardId cardId i target p : Val)
    (taskData D : Obj) :
    ((updateTask s boardId cardId i taskData (.ok D)).tasks.length = s.tasks.length ∧
      List.Forall₂ (fun old new => old.get "id" ≠ i → new = old) s.tasks
        (updateTask s boardId cardId i taskData (.ok D)).tasks) ∧
    ((moveTask s boardId i target p (.ok D)).tasks.length = s.tasks.length ∧
      List.Forall₂ (fun old new => old.get "id" ≠ i → new = old) s.tasks
        (moveTask s boardId i target p (.ok D)).tasks) := by
  refine ⟨updateTask_ok_frame s boardId cardId i taskData D, ?_⟩
  cases hE : s.tasks.find? (fun t => (t.get "id").strictEq i) with
  | none =>
    simp only [moveTask, hE, true_and]
    exact List.forall₂_same.2 (fun _ _ _ => rfl)
  | some T =>
    rw [moveTask_ok_eq_updateTask s boardId i target p T D hE]
    exact updateTask_ok_frame s boardId _ i _ D

/-! ## The store while the request is pending -/

/-- C20, as stated, fails: while the `updateTask` that renames `t1` is pending the
stored title is still 'Fix bug', and while the `moveTask` of `t1` to card `c2` at
position 0 is pending the stored task still has cardId 'c1' and position 2. -/
theorem pending_shows_old_values_counterexample :
    renameRequest.get "title" = .str "Fix login bug" ∧
    (updateTaskPending storesC1.task (.str "b1") (.str "c1") (.str "t1") renameRequest).tasks.map
        (fun t => t.get "title") = [.str "Fix bug"] ∧
    (moveTaskPending tasksTwoCards (.str "b1") (.str "t1") (.str "c2") (.num 0)).map
        (fun sp => sp.tasks.map (fun t => (t.get "id", t.get "cardId", t.get "position")))
      = some [(.str "u1", .str "c2", .num 0), (.str "t1", .str "c1", .num 2)] := by
  decide

/-- C20, amended. While an `updateTask` / `moveTask` request is pending the task
list is exactly the list held before the call, with `loading` true and `error`
null; `moveTask` has a pending state only when the task is in the store.  The
requested values reach the store when the response is reconciled: `updateTask`
is the confirmation (or the failure) applied to the pending state. -/
theorem pending_store_keeps_tasks (s : TaskState) (boardId cardId taskId target p m : Val)
    (taskData D : Obj) :
    ((updateTaskPending s boardId cardId taskId taskData).tasks = s.tasks ∧
      (updateTaskPending s boardId cardId taskId taskData).loading = true ∧
      (updateTaskPending s boardId cardId taskId taskData).error = .null) ∧
    moveTaskPending s boardId taskId target p
      = (s.tasks.find? (fun t => (t.get "id").strictEq taskId)).map
          (fun _ => { s with loading := true, error := .null }) ∧
    updateTask s boardId cardId taskId taskData (.ok D)
      = updateTaskConfirmed (updateTaskPending s boardId cardId taskId taskData)
          cardId taskId taskData D ∧
    updateTask s boardId cardId taskId taskData (.fail m)
      = updateTaskFailed (updateTaskPending s boardId cardId taskId taskData) m := by
  refine ⟨⟨rfl, rfl, rfl⟩, ?_, rfl, rfl⟩
  unfold moveTaskPending
  cases s.tasks.find? (fun t => (t.get "id").strictEq taskId) <;> rfl

/-! ## A failed field edit -/

/-- C21. When the remote call of `updateTask` fails, the task list is the list held
before the call, `loading` is false and the error slot holds the server's message
or, when that is missing (or empty), 'Failed to update task'. -/
theorem updateTask_failure_keeps_tasks (s : TaskState) (boardId cardId taskId m : Val)
    (taskData : Obj) :
    (updateTask s boardId cardId taskId taskData (.fail m)).tasks = s.tasks ∧
    (updateTask s boardId cardId taskId taskData (.fail m)).loading = false ∧
    (updateTask s boardId cardId taskId taskData (.fail m)).error
      = (if m.truthy then m else .str "Failed to update task") ∧
    (updateTask s boardId cardId taskId taskData (.fail .undefined)).error
      = .str "Failed to update task" := by
  refine ⟨rfl, rfl, rfl, rfl⟩

/-! ## A failed move -/

/-- C22, as stated, fails: the move of `t1` to card `c2` is rejected by the server.
The only remote call made is the `updateTask` of the move, no task list is
fetched, and the store keeps the tasks it had, with the error recorded. -/
theorem failed_move_no_refetch_counterexample :
    handleTaskMoveCalls tasksTwoCards (.str "b1")
        { taskId := .str "t1", sourceCardId := .str "c1", targetCardId := .str "c2",
          newPosition := .num 0 } (.fail (.str "Forbidden"))
      = [.updateTask { boardId := .str "b1", cardId := .str "c1", taskId := .str "t1",
                       taskData := moveTaskData taskT1 (.str "c2") (.num 0) }] ∧
    RemoteCall.getTasks (.str "b1") (.str "c1") ∉
      handleTaskMoveCalls tasksTwoCards (.str "b1")
        { taskId := .str "t1", sourceCardId := .str "c1", targetCardId := .str "c2",
          newPosition := .num 0 } (.fail (.str "Forbidden")) ∧
    RemoteCall.getTasks (.str "b1") (.str "c2") ∉
      handleTaskMoveCalls tasksTwoCards (.str "b1")
        { taskId := .str "t1", sourceCardId := .str "c1", targetCardId := .str "c2",
          newPosition := .num 0 } (.fail (.str "Forbidden")) ∧
    handleTaskMove tasksTwoCards (.str "b1")
        { taskId := .str "t1", sourceCardId := .str "c1", targetCardId := .str "c2",
          newPosition := .num 0 } (.fail (.str "Forbidden"))
      = { tasksTwoCards with error := .str "Forbidden" } := by
  decide

theorem find_in_store_of_source (s : TaskState) (c i : Val) (x : Obj)
    (h : (getTasksForCard s c).1.find? (fun t => (t.get "id").strictEq i) = some x) :
    ∃ T, s.tasks.find? (fun t => (t.get "id").strictEq i) = some T := by
  have hx : x ∈ (getTasksForCard s c).1 := List.mem_of_find?_eq_some h
  have hp := List.find?_some h
  simp only [getTasksForCard, tasksForCard] at hx
  rw [mem_jsSort, List.mem_filter] at hx
  have hs : (s.tasks.find? (fun t => (t.get "id").strictEq i)).isSome = true := by
    rw [List.find?_isSome]
    exact ⟨x, hx.1, hp⟩
  exact Option.isSome_iff_exists.1 hs

/-- C22, amended. When the remote call of a task move fails the client fetches
nothing: the `updateTask` request of the move is the only remote call, the task
list is the list held before the move, and, when the request was made, `loading`
is false and the error slot holds the server's message or 'Failed to move
task'. -/
theorem failed_move_keeps_store (s : TaskState) (boardId msg : Val) (m : MoveIntent) :
    handleTaskMoveCalls s boardId m (.fail msg)
      = (handleTaskMoveRequest s boardId m).toList.map RemoteCall.updateTask ∧
    (handleTaskMove s boardId m (.fail msg)).tasks = s.tasks ∧
    handleTaskMove s boardId m (.fail msg)
      = (if (handleTaskMoveRequest s boardId m).isSome then
          { s with loading := false, error := msg.or (.str "Failed to move task") }
        else s) := by
  have hcalls : handleTaskMoveCalls s boardId m (.fail msg)
      = (handleTaskMoveRequest s boardId m).toList.map RemoteCall.updateTask := by
    unfold handleTaskMoveCalls
    cases handleTaskMoveRequest s boardId m <;> rfl
  have hstate : handleTaskMove s boardId m (.fail msg)
      = (if (handleTaskMoveRequest s boardId m).isSome then
          { s with loading := false, error := msg.or (.str "Failed to move task") }
        else s) := by
    by_cases ht : m.taskId.truthy = true
    · cases hsrc : (getTasksForCard s m.sourceCardId).1.find?
          (fun t => (t.get "id").strictEq m.taskId) with
      | none => simp [handleTaskMove, handleTaskMoveRequest, ht, hsrc]
      | some x =>
        obtain ⟨T, hT⟩ := find_in_store_of_source s _ _ x hsrc
        simp [handleTaskMove, handleTaskMoveRequest, ht, hsrc, moveTask, moveTaskRequest, hT,
          updateTask, updateTaskFailed, TaskState.start]
    · simp [handleTaskMove, handleTaskMoveRequest, ht]
  refine ⟨hcalls, ?_, hstate⟩
  rw [hstate]
  split_ifs <;> rfl

/-! ## A pushed card update -/

/-- The card list after `updateCardDirect`, place by place: a card with the
identifier takes the payload's value where the payload has the property and keeps
its own elsewhere; every other card is as it was. -/
theorem updateCardDirect_merges (cs : CardState) (i : Val) (D : Obj) :
    List.Forall₂
      (fun old new =>
        (old.get "id" = i →
          (∀ k, D.has k = true → new.get k = D.get k) ∧
          (∀ k, D.has k = false → new.get k = old.get k)) ∧
        (old.get "id" ≠ i → new = old))
      cs.cards (updateCardDirect cs i D).cards := by
  simp only [updateCardDirect]
  rw [List.forall₂_map_right_iff]
  apply List.forall₂_same.2
  intro c _
  by_cases hc : (c.get "id").strictEq i = true
  · rw [if_pos hc]
    refine ⟨fun _ => ⟨fun k hk => ?_, fun k hk => ?_⟩, fun hne => ?_⟩
    · rw [Obj.get_spread, hk]; rfl
    · rw [Obj.get_spread, hk]; rfl
    · exact absurd ((Val.strictEq_iff _ _).1 hc) hne
  · rw [if_neg hc]
    refine ⟨fun he => ?_, fun _ => rfl⟩
    exact absurd ((Val.strictEq_iff _ _).2 he) hc

/-- What the two handlers do when they merge: a `card_moved` push for the current
board always writes `{ ...card, ...D }` over the stored cards with `D`'s
identifier, and a `card_updated` push does so when the card list the hook closed
over holds a card with that identifier.  Place by place, a card with the
identifier has `D`'s value for every field `D` has and its own previous value for
every other field, every other card is exactly as it was, and the task store is
untouched. -/
theorem card_push_merges_when_captured (h : Hook) (st : Stores) (i : Val) (C D : Obj)
    (refetch : Remote (List Obj))
    (hb : h.forBoard (D.get "boardId") = true) (hid : D.get "id" = i)
    (hC : C ∈ h.cards) (hCi : C.get "id" = i) :
    (List.Forall₂
      (fun old new =>
        (old.get "id" = i →
          (∀ k, D.has k = true → new.get k = D.get k) ∧
          (∀ k, D.has k = false → new.get k = old.get k)) ∧
        (old.get "id" ≠ i → new = old))
      st.card.cards (onCardUpdated h st D refetch).card.cards ∧
      (onCardUpdated h st D refetch).task = st.task) ∧
    (List.Forall₂
      (fun old new =>
        (old.get "id" = i →
          (∀ k, D.has k = true → new.get k = D.get k) ∧
          (∀ k, D.has k = false → new.get k = old.get k)) ∧
        (old.get "id" ≠ i → new = old))
      st.card.cards (onCardMoved h st D).card.cards ∧
      (onCardMoved h st D).task = st.task) := by
  subst hid
  have hfound : (h.cards.find? (fun c => (c.get "id").strictEq (D.get "id"))).isSome
      = true := by
    rw [List.find?_isSome]
    exact ⟨C, hC, (Val.strictEq_iff _ _).2 hCi⟩
  obtain ⟨x, hx⟩ := Option.isSome_iff_exists.1 hfound
  constructor
  · have e : onCardUpdated h st D refetch
        = { st with card := updateCardDirect st.card (D.get "id") D } := by
      simp only [onCardUpdated, hb, if_true, hx]
    rw [e]
    exact ⟨updateCardDirect_merges st.card _ D, rfl⟩
  · have e : onCardMoved h st D = { st with card := updateCardDirect st.card (D.get "id") D } := by
      simp only [onCardMoved, hb, if_true]
    rw [e]
    exact ⟨updateCardDirect_merges st.card _ D, rfl⟩

/-- A `card_updated` push for the current board whose card is not in the list the
hook closed over starts `fetchCards`, whatever the card store holds: the card
store afterwards is the one `fetchCards` leaves. -/
theorem onCardUpdated_not_captured (h : Hook) (st : Stores) (D : Obj)
    (refetch : Remote (List Obj))
    (hb : h.forBoard (D.get "boardId") = true)
    (hnone : h.cards.find? (fun c => (c.get "id").strictEq (D.get "id")) = none) :
    onCardUpdated h st D refetch = { st with card := fetchCards st.card refetch } ∧
    startsRefetch h st (.cardUpdated D) = true := by
  simp [onCardUpdated, startsRefetch, hb, hnone]

/-- C23, the failing run: the board view was rendered while the card store was
empty.  A `card_created` push stores the card `c1` (position 0), and before the
next render a `card_updated` push for `c1` arrives with position 2.  The handler
looks for `c1` in the empty list it closed over, does not find it and starts
`fetchCards` instead of merging: when the server answers with no card the store
ends empty, and when the call fails the stored `c1` still has position 0.  The
`card_moved` push with the same payload merges, and so does `card_updated` once
the hook has closed over the list holding `c1`. -/
theorem card_updated_refetches_stored_card :
    hookB1.cards = [] ∧
    (onCardCreated hookB1 storesT1 cardC1).card.cards = [cardC1] ∧
    cardMovedC1.get "id" = cardC1.get "id" ∧
    hookB1.forBoard (cardMovedC1.get "boardId") = true ∧
    startsRefetch hookB1 (onCardCreated hookB1 storesT1 cardC1) (.cardUpdated cardMovedC1)
      = true ∧
    (onCardUpdated hookB1 (onCardCreated hookB1 storesT1 cardC1) cardMovedC1
        (.ok [])).card.cards = [] ∧
    (onCardUpdated hookB1 (onCardCreated hookB1 storesT1 cardC1) cardMovedC1
        (.fail (.str "Network Error"))).card.cards = [cardC1] ∧
    (onCardUpdated hookB1 (onCardCreated hookB1 storesT1 cardC1) cardMovedC1
        (.fail (.str "Network Error"))).card.cards.map (fun c => c.get "position")
      = [.num 0] ∧
    (onCardUpdated hookB1 (onCardCreated hookB1 storesT1 cardC1) cardMovedC1
        (.fail (.str "Network Error"))).card.error = .str "Network Error" ∧
    (onCardMoved hookB1 (onCardCreated hookB1 storesT1 cardC1) cardMovedC1).card.cards
      = [[("id", .str "c1"), ("boardId", .str "b1"), ("name", .str "To do"),
          ("position", .num 2)]] ∧
    (onCardUpdated { hookB1 with cards := [cardC1] } (onCardCreated hookB1 storesT1 cardC1)
        cardMovedC1 (.ok [])).card.cards
      = [[("id", .str "c1"), ("boardId", .str "b1"), ("name", .str "To do"),
          ("position", .num 2)]] := by
  decide

/-! ## The response of `updateCard` and `updateBoard` -/

/-- C24, as stated, fails: card `c1` is stored with boardId, name and position; the
response of `updateCard` carries the identifier and a new name only.  The stored
card afterwards is the response: it has no boardId and no position any more.  The
same happens to a board, in the list and as current board. -/
theorem updateCard_substitutes_counterexample :
    cardC1.get "position" = .num 0 ∧ renamedC1.has "position" = false ∧
    (updateCard storesC1.card (.str "c1") (.ok renamedC1)).cards = [renamedC1] ∧
    (updateCard storesC1.card (.str "c1") (.ok renamedC1)).cards.map
        (fun c => (c.get "position", c.get "boardId")) = [(.undefined, .undefined)] ∧
    boardB1.get "ownerId" = .str "u1" ∧
    (updateBoard boardsB1 (.str "b1") (.ok [("id", .str "b1"), ("name", .str "Plan")])).boards.map
        (fun b => b.get "ownerId") = [.undefined] ∧
    (updateBoard boardsB1 (.str "b1")
        (.ok [("id", .str "b1"), ("name", .str "Plan")])).currentBoard
      = some [("id", .str "b1"), ("name", .str "Plan")] := by
  decide

/-- C24, amended. After a successful `updateCard` (`updateBoard`) every stored card
(board) with the identifier is the response `R` itself, so it has `R`'s value for
every field and nothing for a field `R` lacks; the other cards (boards) are as they
were, the current board is replaced by `R` when it has the identifier, `loading`
is false and `error` is null. -/
theorem update_response_substitutes (cs : CardState) (bs : BoardState) (id : Val) (R : Obj) :
    ((updateCard cs id (.ok R)).cards
        = cs.cards.map (fun card => if card.get "id" = id then R else card) ∧
      (updateCard cs id (.ok R)).loading = false ∧ (updateCard cs id (.ok R)).error = .null) ∧
    ((updateBoard bs id (.ok R)).boards
        = bs.boards.map (fun board => if board.get "id" = id then R else board) ∧
      (updateBoard bs id (.ok R)).currentBoard
        = (match bs.currentBoard with
           | some current => if current.get "id" = id then some R else some current
           | none => if id = .undefined then some R else none) ∧
      (updateBoard bs id (.ok R)).loading = false ∧
      (updateBoard bs id (.ok R)).error = .null) := by
  refine ⟨⟨?_, rfl, rfl⟩, ⟨?_, ?_, rfl, rfl⟩⟩
  · simp [updateCard, CardState.start, Val.strictEq]
  · simp [updateBoard, BoardState.start, Val.strictEq]
  · simp only [updateBoard, BoardState.start, Val.strictEq, beq_iff_eq]
    cases bs.currentBoard with
    | none => simp [eq_comm]
    | some current => rfl

/-! ## A failed fetch -/

/-- C25, as stated, fails for `fetchBoards`: the board store holds board `b1`; after
a failed `fetchBoards` the board list is empty. -/
theorem fetchBoards_failure_empties_counterexample :
    boardsB1.boards = [boardB1] ∧
    (fetchBoards boardsB1 (.fail .undefined)).boards = [] ∧
    (fetchBoards boardsB1 (.fail .undefined)).currentBoard = some boardB1 := by
  decide

/-- C25, amended. A failed `fetchBoardById`, `fetchCards` or `fetchTasks` keeps
every entity held before the call (boards and current board, cards, tasks); a
failed `fetchBoards` keeps the current board and empties the board list.  In each
case `loading` is false and the error slot holds the server's message or the
action's own text. -/
theorem fetch_failure_effects (bs : BoardState) (cs : CardState) (ts : TaskState)
    (cardId m : Val) :
    ((fetchBoardById bs (.fail m)).boards = bs.boards ∧
      (fetchBoardById bs (.fail m)).currentBoard = bs.currentBoard ∧
      (fetchBoardById bs (.fail m)).loading = false ∧
      (fetchBoardById bs (.fail m)).error = m.or (.str "Failed to fetch board")) ∧
    ((fetchCards cs (.fail m)).cards = cs.cards ∧
      (fetchCards cs (.fail m)).loading = false ∧
      (fetchCards cs (.fail m)).error = m.or (.str "Failed to fetch lists")) ∧
    ((fetchTasks ts cardId (.fail m)).tasks = ts.tasks ∧
      (fetchTasks ts cardId (.fail m)).loading = false ∧
      (fetchTasks ts cardId (.fail m)).error = m.or (.str "Failed to fetch tasks")) ∧
    ((fetchBoards bs (.fail m)).boards = [] ∧
      (fetchBoards bs (.fail m)).currentBoard = bs.currentBoard ∧
      (fetchBoards bs (.fail m)).loading = false ∧
      (fetchBoards bs (.fail m)).error = m.or (.str "Failed to fetch boards")) :=
  ⟨⟨rfl, rfl, rfl, rfl⟩, ⟨rfl, rfl, rfl⟩, ⟨rfl, rfl, rfl⟩, ⟨rfl, rfl, rfl, rfl⟩⟩

/-! ## Events of other boards -/

theorem forBoard_false_of_other (h : Hook) (b : Val)
    (hother : h.boardId.truthy = false ∨ b ≠ h.boardId) : h.forBoard b = false := by
  unfold Hook.forBoard
  rcases hother with h1 | h1
  · simp [h1]
  · simp [Val.strictEq, h1]

/-- C26. When the hook has no board identifier, or the payload of a card or task
push event names another board, the handler leaves the card store and the task
store as they were and calls no `fetchCards`. -/
theorem push_for_other_board_ignored (h : Hook) (st : Stores) (ev : PushEvent)
    (refetch : Remote (List Obj))
    (hother : h.boardId.truthy = false ∨ ev.boardId ≠ h.boardId) :
    handlePush h st ev refetch = st ∧ startsRefetch h st ev = false := by
  have hf := forBoard_false_of_other h ev.boardId hother
  cases ev with
  | cardCreated newCard =>
    simp only [PushEvent.boardId] at hf
    simp [handlePush, startsRefetch, onCardCreated, hf]
  | cardUpdated updatedCard =>
    simp only [PushEvent.boardId] at hf
    simp [handlePush, startsRefetch, onCardUpdated, hf]
  | cardDeleted data =>
    simp only [PushEvent.boardId] at hf
    simp [handlePush, startsRefetch, onCardDeleted, hf]
  | cardMoved updatedCard =>
    simp only [PushEvent.boardId] at hf
    simp [handlePush, startsRefetch, onCardMoved, hf]
  | taskCreated data =>
    simp only [PushEvent.boardId] at hf
    simp [handlePush, startsRefetch, onTaskCreated, hf]
  | taskUpdated data =>
    simp only [PushEvent.boardId] at hf
    simp [handlePush, startsRefetch, onTaskUpdated, hf]
  | taskDeleted data =>
    simp only [PushEvent.boardId] at hf
    simp [handlePush, startsRefetch, onTaskDeleted, hf]
  | tasksReordered data =>
    simp only [PushEvent.boardId] at hf
    simp [handlePush, startsRefetch, onTasksReordered, hf]
  | cardsReordered data =>
    simp only [PushEvent.boardId] at hf
    simp [handlePush, startsRefetch, onCardsReordered, hf]

/-- C26, on a hook mounted for board `b2`: the `card_deleted` push for card `c1` of
board `b1` changes nothing. -/
theorem push_for_other_board_ignored_witness :
    (hookB2.boardId.truthy = false ∨ (PushEvent.cardDeleted cardDeletedC1).boardId ≠ hookB2.boardId) ∧
    (handlePush hookB2 storesC1 (.cardDeleted cardDeletedC1) (.ok []) = storesC1 ∧
      startsRefetch hookB2 storesC1 (.cardDeleted cardDeletedC1) = false) :=
  ⟨by decide,
   push_for_other_board_ignored hookB2 storesC1 (.cardDeleted cardDeletedC1) (.ok [])
     (by decide)⟩

/-! ## A successful `fetchTasks` -/

/-- C27. After a successful `fetchTasks(c)` whose response is the list `L`, the task
list is the previously stored tasks whose cardId is not `c`, in their order and
unchanged, followed by `L`; when the response is not a list it is those tasks
alone.  `loading` is false and `error` is null. -/
theorem fetchTasks_replaces_card_tasks (s : TaskState) (c : Val) (L : List Obj) :
    ((fetchTasks s c (.ok (responseTasks (some L)))).tasks
        = s.tasks.filter (fun t => decide (t.get "cardId" ≠ c)) ++ L ∧
      (fetchTasks s c (.ok (responseTasks (some L)))).loading = false ∧
      (fetchTasks s c (.ok (responseTasks (some L)))).error = .null) ∧
    ((fetchTasks s c (.ok (responseTasks none))).tasks
        = s.tasks.filter (fun t => decide (t.get "cardId" ≠ c)) ∧
      (fetchTasks s c (.ok (responseTasks none))).loading = false ∧
      (fetchTasks s c (.ok (responseTasks none))).error = .null) := by
  have hfilter : s.tasks.filter (fun task => !(task.get "cardId").strictEq c)
      = s.tasks.filter (fun t => decide (t.get "cardId" ≠ c)) := by
    apply List.filter_congr
    intro t _
    by_cases ht : t.get "cardId" = c <;> simp [Val.strictEq, ht]
  refine ⟨⟨?_, rfl, rfl⟩, ⟨?_, rfl, rfl⟩⟩
  · simp only [fetchTasks, responseTasks, TaskState.start, hfilter]
  · simp only [fetchTasks, responseTasks, TaskState.start, hfilter, List.append_nil]

/-! ## Moving a task the store does not hold -/

/-- C28. When no stored task has the identifier, `moveTask` rejects with the error
'Task not found' and makes no remote call; the task list and `loading` are as they
were and the error slot holds 'Failed to move task'. -/
theorem moveTask_unknown_task (s : TaskState) (boardId i target p : Val) (r : Remote Obj)
    (hnone : ∀ t ∈ s.tasks, t.get "id" ≠ i) :
    moveTaskOutcome s i target p r = .error (.error "Task not found") ∧
    moveTaskRequest s boardId i target p = none ∧
    (moveTask s boardId i target p r).tasks = s.tasks ∧
    (moveTask s boardId i target p r).loading = s.loading ∧
    (moveTask s boardId i target p r).error = .str "Failed to move task" := by
  have hfind : s.tasks.find? (fun t => (t.get "id").strictEq i) = none := by
    rw [List.find?_eq_none]
    intro t ht hc
    exact hnone t ht ((Val.strictEq_iff _ _).1 hc)
  simp only [moveTaskOutcome, moveTaskRequest, moveTask, hfind, Val.or, Val.truthy]
  simp

/-- C28, on the store holding only `t1`: `t9` is moved. -/
theorem moveTask_unknown_task_witness :
    (∀ t ∈ storesC1.task.tasks, t.get "id" ≠ Val.str "t9") ∧
    (moveTaskOutcome storesC1.task (.str "t9") (.str "c2") (.num 0) (.ok taskT9)
        = .error (.error "Task not found") ∧
      moveTaskRequest storesC1.task (.str "b1") (.str "t9") (.str "c2") (.num 0) = none ∧
      (moveTask storesC1.task (.str "b1") (.str "t9") (.str "c2") (.num 0) (.ok taskT9)).tasks
        = storesC1.task.tasks ∧
      (moveTask storesC1.task (.str "b1") (.str "t9") (.str "c2") (.num 0) (.ok taskT9)).loading
        = storesC1.task.loading ∧
      (moveTask storesC1.task (.str "b1") (.str "t9") (.str "c2") (.num 0) (.ok taskT9)).error
        = .str "Failed to move task") :=
  ⟨by decide,
   moveTask_unknown_task storesC1.task (.str "b1") (.str "t9") (.str "c2") (.num 0) (.ok taskT9)
     (by decide)⟩

/-! ## Reordering by a list of positions -/

theorem lastPosition_append (ps : List (Val × Val)) (e : Val × Val) (id : Val) :
    lastPosition (ps ++ [e]) id
      = if e.1.strictEq id then some e.2 else lastPosition ps id := by
  simp [lastPosition, List.foldl_append]

theorem Obj.get_set_position_ne (t : Obj) (p : Val) (k : String) (hk : k ≠ "position") :
    (t.set "position" p).get k = t.get k := by
  rw [Obj.get_set, if_neg (fun h => hk h.symm)]

theorem withListedPosition_get_ne (ps : List (Val × Val)) (t : Obj) (k : String)
    (hk : k ≠ "position") : (withListedPosition ps t).get k = t.get k := by
  unfold withListedPosition
  cases lastPosition ps (t.get "id") with
  | none => rfl
  | some p => exact Obj.get_set_position_ne t p k hk

theorem withListedPosition_id (ps : List (Val × Val)) (t : Obj) :
    (withListedPosition ps t).get "id" = t.get "id" :=
  withListedPosition_get_ne ps t "id" (by decide)

theorem withListedPosition_position (ps : List (Val × Val)) (t : Obj) :
    (withListedPosition ps t).get "position"
      = (lastPosition ps (t.get "id")).getD (t.get "position") := by
  unfold withListedPosition
  cases lastPosition ps (t.get "id") with
  | none => rfl
  | some p => simp [Obj.get_set]

theorem withListedPosition_nil (t : Obj) : withListedPosition [] t = t := rfl

/-- In a list without two equal identifiers every entity is the first one with
its identifier. -/
theorem find_of_uniqueIds (l : List Obj) (hu : UniqueIds l) (t : Obj) (ht : t ∈ l) :
    l.find? (fun x => (x.get "id").strictEq (t.get "id")) = some t := by
  induction l with
  | nil => simp at ht
  | cons a l ih =>
    unfold UniqueIds at hu
    rw [List.pairwise_cons] at hu
    rcases List.mem_cons.1 ht with h | h
    · subst h
      simp [List.find?, Val.strictEq]
    · have hne : (a.get "id").strictEq (t.get "id") = false := by
        simpa [Val.strictEq] using hu.1 t h
      simp only [List.find?, hne]
      exact ih hu.2 h

/-- One entry of the list, applied to every entity: those with the entry's
identifier take its position. -/
theorem withListedPosition_snoc_map (l : List Obj) (ps : List (Val × Val)) (e : Val × Val) :
    l.map (withListedPosition (ps ++ [e]))
      = l.map (fun t =>
          if (t.get "id").strictEq e.1 then t.set "position" e.2
          else withListedPosition ps t) := by
  apply List.map_congr_left
  intro t _
  unfold withListedPosition
  rw [lastPosition_append]
  by_cases hc : (t.get "id").strictEq e.1 = true
  · have hc' : e.1.strictEq (t.get "id") = true :=
      (Val.strictEq_iff _ _).2 ((Val.strictEq_iff _ _).1 hc).symm
    rw [if_pos hc, if_pos hc']
  · have hc' : ¬ e.1.strictEq (t.get "id") = true := fun hh =>
      hc ((Val.strictEq_iff _ _).2 ((Val.strictEq_iff _ _).1 hh).symm)
    rw [if_neg hc, if_neg hc']

/-- The loop of the `tasks_reordered` handler on a task list without two equal
identifiers: every task ends with the position the list gives for it. -/
theorem reorder_loop_tasks (s : TaskState) (hu : UniqueIds s.tasks) (ps : List (Val × Val)) :
    ps.foldl (fun cur e =>
        match s.tasks.find? (fun t => (t.get "id").strictEq e.1) with
        | some task => updateTaskDirect cur e.1 (task.set "position" e.2)
        | none => cur) s
      = { s with tasks := s.tasks.map (withListedPosition ps) } := by
  induction ps using List.reverseRecOn with
  | nil =>
    have hid : withListedPosition [] = fun t => t := funext withListedPosition_nil
    simp only [List.foldl, hid, List.map_id']
  | append_singleton ps e ih =>
    rw [List.foldl_append, ih, withListedPosition_snoc_map]
    simp only [List.foldl]
    cases hfind : s.tasks.find? (fun t => (t.get "id").strictEq e.1) with
    | none =>
      simp only
      congr 1
      apply List.map_congr_left
      intro t ht
      have hne : ¬ (t.get "id").strictEq e.1 = true := List.find?_eq_none.1 hfind t ht
      rw [if_neg hne]
    | some T =>
      simp only [updateTaskDirect, List.map_map]
      congr 1
      apply List.map_congr_left
      intro t ht
      simp only [Function.comp, withListedPosition_id]
      by_cases hc : (t.get "id").strictEq e.1 = true
      · rw [if_pos hc, if_pos hc]
        have ht' := find_of_uniqueIds s.tasks hu t ht
        rw [(Val.strictEq_iff _ _).1 hc, hfind] at ht'
        rw [Option.some.inj ht']
      · rw [if_neg hc, if_neg hc]

/-- C29, as stated, fails: the task store holds two tasks with identifier `t1`,
titled 'A' and 'B', and the push lists `t1` with position 4.  The handler finds
the first and writes `{ ...task, position }` over both: the second task is titled
'A' afterwards, so a field other than its position has changed. -/
theorem tasks_reordered_rewrites_duplicate_counterexample :
    storesDup.task.tasks.map (fun t => (t.get "id", t.get "title", t.get "position"))
      = [(.str "t1", .str "A", .num 0), (.str "t1", .str "B", .num 1)] ∧
    (onTasksReordered hookB1 storesDup
        { boardId := .str "b1", cardId := .str "c1",
          taskPositions := some [(.str "t1", .num 4)] }
        (.ok [])).task.tasks.map (fun t => (t.get "id", t.get "title", t.get "position"))
      = [(.str "t1", .str "A", .num 4), (.str "t1", .str "A", .num 4)] ∧
    (onTasksReordered hookB1 storesDup
        { boardId := .str "b1", cardId := .str "c1",
          taskPositions := some [(.str "t1", .num 4)] }
        (.ok [])).task.tasks
      ≠ storesDup.task.tasks.map (withListedPosition [(.str "t1", .num 4)]) := by
  decide

/-- C29, amended. A `tasks_reordered` push for the current board carries a cardId
and the list `ps` of positions, and no two stored tasks share an identifier.
Afterwards
the task list has the same length and order; place by place, a task whose
identifier is listed has the position of the last entry for it and every other
field as before, and a task whose identifier is not listed is as it was.  Entries
for identifiers that are not stored change nothing, the cardId of the event is
not compared with anything, `loading`, `error` and the card store stay as they
were and no refetch is started. -/
theorem tasks_reordered_sets_positions (h : Hook) (st : Stores) (data : ReorderEvent)
    (ps : List (Val × Val)) (refetch : Remote (List Obj))
    (hb : h.forBoard data.boardId = true) (hc : data.cardId.truthy = true)
    (hps : data.taskPositions = some ps) (hu : UniqueIds st.task.tasks) :
    (onTasksReordered h st data refetch).task.tasks
      = st.task.tasks.map (withListedPosition ps) ∧
    (∀ t : Obj, (withListedPosition ps t).get "position"
      = (lastPosition ps (t.get "id")).getD (t.get "position")) ∧
    (∀ (t : Obj) (k : String), k ≠ "position" → (withListedPosition ps t).get k = t.get k) ∧
    (∀ t : Obj, lastPosition ps (t.get "id") = none → withListedPosition ps t = t) ∧
    (onTasksReordered h st data refetch).task.loading = st.task.loading ∧
    (onTasksReordered h st data refetch).task.error = st.task.error ∧
    (onTasksReordered h st data refetch).card = st.card ∧
    startsRefetch h st (.tasksReordered data) = false := by
  have e : onTasksReordered h st data refetch
      = { st with task := { st.task with tasks := st.task.tasks.map (withListedPosition ps) } } := by
    simp only [onTasksReordered, hb, hc, hps, if_true]
    rw [reorder_loop_tasks st.task hu ps]
  rw [e]
  refine ⟨rfl, withListedPosition_position ps, withListedPosition_get_ne ps, ?_, rfl, rfl, rfl, ?_⟩
  · intro t ht
    simp [withListedPosition, ht]
  · simp [startsRefetch, hb, hc, hps]

/-- C29, amended, on the store `[v1, t1, w1]`: the push is for card `c9`, lists
`t1` twice (7, then 5) and the unknown `zz`. -/
theorem tasks_reordered_sets_positions_witness :
    (hookB1.forBoard reorderedB1.boardId = true ∧ reorderedB1.cardId.truthy = true ∧
      UniqueIds tasksFront.tasks) ∧
    (onTasksReordered hookB1 { card := storesC1.card, task := tasksFront } reorderedB1
        (.ok [])).task.tasks.map (fun t => (t.get "id", t.get "cardId", t.get "position"))
      = [(.str "v1", .str "c2", .num 2), (.str "t1", .str "c1", .num 5),
         (.str "w1", .str "c2", .undefined)] ∧
    (onTasksReordered hookB1 { card := storesC1.card, task := tasksFront } reorderedB1
        (.ok [])).task.tasks
      = tasksFront.tasks.map
          (withListedPosition [(.str "t1", .num 7), (.str "zz", .num 1), (.str "t1", .num 5)]) :=
  ⟨⟨by decide, by decide, by decide⟩, by decide,
   (tasks_reordered_sets_positions hookB1 { card := storesC1.card, task := tasksFront }
      reorderedB1 [(.str "t1", .num 7), (.str "zz", .num 1), (.str "t1", .num 5)] (.ok [])
      (by decide) (by decide) rfl (by decide)).1⟩

/-! ## `reorderCards` -/

theorem Obj.set_of_has (o : Obj) (k : String) (v : Val) (h : o.has k = true) :
    o.set k v = o.map (fun p => if p.1 = k then (k, v) else p) := by
  unfold Obj.set; rw [if_pos h]

theorem Obj.set_of_not_has (o : Obj) (k : String) (v : Val) (h : o.has k = false) :
    o.set k v = o ++ [(k, v)] := by
  unfold Obj.set; rw [if_neg (by simp [h])]

theorem Obj.set_set (o : Obj) (k : String) (v w : Val) : (o.set k v).set k w = o.set k w := by
  have hhas : (o.set k v).has k = true := by rw [Obj.has_set]; simp
  rw [Obj.set_of_has (o.set k v) k w hhas]
  by_cases h : o.has k = true
  · rw [Obj.set_of_has o k v h, Obj.set_of_has o k w h, List.map_map]
    apply List.map_congr_left
    intro x _
    by_cases hx : x.1 = k
    · simp [Function.comp, hx]
    · simp [Function.comp, hx]
  · have hf : o.has k = false := by simpa using h
    rw [Obj.set_of_not_has o k v hf, Obj.set_of_not_has o k w hf, List.map_append,
      Obj.map_set_of_not_has o k w hf]
    simp

theorem updateFirst_of_uniqueIds (c : Val) (f : Obj → Obj) (l : List Obj) (hu : UniqueIds l) :
    updateFirst (fun card => (card.get "id").strictEq c) f l
      = l.map (fun card => if (card.get "id").strictEq c then f card else card) := by
  induction l with
  | nil => rfl
  | cons a l ih =>
    unfold UniqueIds at hu
    rw [List.pairwise_cons] at hu
    by_cases hc : (a.get "id").strictEq c = true
    · have hrest : l.map (fun card => if (card.get "id").strictEq c then f card else card) = l := by
        have hmap : ∀ x ∈ l,
            (fun card : Obj => if (card.get "id").strictEq c then f card else card) x = x := by
          intro x hx
          have hne : ¬ (x.get "id").strictEq c = true := by
            intro hh
            exact hu.1 x hx (((Val.strictEq_iff _ _).1 hc).trans ((Val.strictEq_iff _ _).1 hh).symm)
          simp only [if_neg hne]
        calc l.map (fun card => if (card.get "id").strictEq c then f card else card)
            = l.map (fun x => x) := List.map_congr_left hmap
          _ = l := List.map_id' l
      simp only [updateFirst, List.map_cons, if_pos hc, hrest]
    · simp only [updateFirst, List.map_cons, if_neg hc]
      rw [ih hu.2]

theorem uniqueIds_map_withListedPosition (ps : List (Val × Val)) (l : List Obj)
    (hu : UniqueIds l) : UniqueIds (l.map (withListedPosition ps)) := by
  unfold UniqueIds at hu ⊢
  rw [List.pairwise_map]
  refine hu.imp ?_
  intro a b hab
  rw [withListedPosition_id, withListedPosition_id]
  exact hab

theorem set_position_withListedPosition (ps : List (Val × Val)) (t : Obj) (p : Val) :
    (withListedPosition ps t).set "position" p = t.set "position" p := by
  unfold withListedPosition
  cases lastPosition ps (t.get "id") with
  | none => rfl
  | some q => exact Obj.set_set t "position" q p

/-- The loop of `reorderCards` on a card list without two equal identifiers: every
card ends with the position the list gives for it. -/
theorem reorder_loop_cards (cards : List Obj) (hu : UniqueIds cards) (ps : List (Val × Val)) :
    ps.foldl (fun updatedCards e =>
        updateFirst (fun card => (card.get "id").strictEq e.1)
          (fun card => card.set "position" e.2) updatedCards) cards
      = cards.map (withListedPosition ps) := by
  induction ps using List.reverseRecOn with
  | nil =>
    have hid : withListedPosition [] = fun t => t := funext withListedPosition_nil
    simp only [List.foldl, hid, List.map_id']
  | append_singleton ps e ih =>
    rw [List.foldl_append, ih, withListedPosition_snoc_map]
    simp only [List.foldl]
    rw [updateFirst_of_uniqueIds e.1 _ _ (uniqueIds_map_withListedPosition ps cards hu),
      List.map_map]
    apply List.map_congr_left
    intro t _
    simp only [Function.comp, withListedPosition_id]
    by_cases hc : (t.get "id").strictEq e.1 = true
    · rw [if_pos hc, if_pos hc, set_position_withListedPosition]
    · rw [if_neg hc, if_neg hc]

/-- C30, as stated, fails: the card store holds two cards with identifier `c1`, at
positions 0 and 5, and the list gives `c1` position 3.  `findIndex` stops at the
first: the second card, whose identifier is listed, still has position 5. -/
theorem reorderCards_skips_duplicate_counterexample :
    (reorderCards { cards := [cardC1, dupC1], loading := false, error := .null }
        [(.str "c1", .num 3)] (.ok ())).cards.map
        (fun c => (c.get "id", c.get "name", c.get "position"))
      = [(.str "c1", .str "To do", .num 3), (.str "c1", .str "Copy", .num 5)] ∧
    ¬ (∀ c ∈ (reorderCards { cards := [cardC1, dupC1], loading := false, error := .null }
          [(.str "c1", .num 3)] (.ok ())).cards,
        c.get "id" = .str "c1" → c.get "position" = .num 3) := by
  decide

/-- C30, amended. The card store holds no two cards with the same identifier.
After a successful `reorderCards` the card list is a rearrangement of the cards held
before, each with the position the list gives for its identifier (that of the last
entry naming it) and every other field as before, or exactly as it was when the
list does not name it; entries for identifiers that are not stored change
nothing; identifiers and count are the same; and, the positions being numbers (a
missing one counting as 0), the list is in non-decreasing order of position.
After a failed call the card list is the list held before and the error slot
holds the server's message or 'Failed to reorder cards'. -/
theorem reorderCards_effects (s : CardState) (ps : List (Val × Val)) (m : Val)
    (hu : UniqueIds s.cards)
    (hnum : ∀ c ∈ s.cards, NumericPosition (withListedPosition ps c)) :
    ((reorderCards s ps (.ok ())).cards.Perm (s.cards.map (withListedPosition ps)) ∧
      ((reorderCards s ps (.ok ())).cards.map (fun c => c.get "id")).Perm
        (s.cards.map (fun c => c.get "id")) ∧
      (reorderCards s ps (.ok ())).cards.length = s.cards.length ∧
      (∀ c : Obj, (withListedPosition ps c).get "position"
        = (lastPosition ps (c.get "id")).getD (c.get "position")) ∧
      (∀ (c : Obj) (k : String), k ≠ "position" → (withListedPosition ps c).get k = c.get k) ∧
      (∀ c : Obj, lastPosition ps (c.get "id") = none → withListedPosition ps c = c) ∧
      (reorderCards s ps (.ok ())).cards.Pairwise (fun a b =>
        ∃ x y : Int, positionOr0 a = .num x ∧ positionOr0 b = .num y ∧ x ≤ y) ∧
      (reorderCards s ps (.ok ())).loading = s.loading ∧
      (reorderCards s ps (.ok ())).error = s.error) ∧
    ((reorderCards s ps (.fail m)).cards = s.cards ∧
      (reorderCards s ps (.fail m)).loading = s.loading ∧
      (reorderCards s ps (.fail m)).error = m.or (.str "Failed to reorder cards")) := by
  have hcards : (reorderCards s ps (.ok ())).cards
      = jsSort comparePosition (s.cards.map (withListedPosition ps)) := by
    simp only [reorderCards]
    rw [reorder_loop_cards s.cards hu ps]
  have hperm : (reorderCards s ps (.ok ())).cards.Perm (s.cards.map (withListedPosition ps)) := by
    rw [hcards]; exact perm_jsSort _ _
  have hids : (s.cards.map (withListedPosition ps)).map (fun c => c.get "id")
      = s.cards.map (fun c => c.get "id") := by
    rw [List.map_map]
    apply List.map_congr_left
    intro c _
    exact withListedPosition_id ps c
  refine ⟨⟨hperm, ?_, ?_, withListedPosition_position ps, withListedPosition_get_ne ps, ?_, ?_,
    rfl, rfl⟩, ⟨rfl, rfl, rfl⟩⟩
  · rw [← hids]; exact hperm.map _
  · rw [hperm.length_eq, List.length_map]
  · intro c hc
    simp [withListedPosition, hc]
  · have hs := sorted_jsSort (s.cards.map (withListedPosition ps))
    rw [← hcards] at hs
    have hmem : ∀ a ∈ (reorderCards s ps (.ok ())).cards, NumericPosition a := by
      intro a ha
      obtain ⟨c, hc, hca⟩ := List.mem_map.1 (hperm.mem_iff.1 ha)
      rw [← hca]
      exact hnum c hc
    refine List.Pairwise.imp_of_mem ?_ hs
    intro a b ha hb hab
    exact ⟨posKey a, posKey b, positionOr0_eq_of_numeric a (hmem a ha),
      positionOr0_eq_of_numeric b (hmem b hb), hab⟩

/-- C30, amended, on the card store `[c1 (position 0), c2 (position 1)]`: the list
swaps the two positions and names the unknown card `c7`. -/
theorem reorderCards_effects_witness :
    (UniqueIds storesTwoCards.card.cards ∧
      ∀ c ∈ storesTwoCards.card.cards, NumericPosition (withListedPosition swapCards c)) ∧
    (reorderCards storesTwoCards.card swapCards (.ok ())).cards.map
        (fun c => (c.get "id", c.get "name", c.get "position"))
      = [(.str "c2", .str "Doing", .num 0), (.str "c1", .str "To do", .num 1)] ∧
    (reorderCards storesTwoCards.card swapCards (.ok ())).cards.Perm
      (storesTwoCards.card.cards.map (withListedPosition swapCards)) ∧
    (reorderCards storesTwoCards.card swapCards (.fail .undefined)).error
      = .str "Failed to reorder cards" :=
  ⟨⟨by decide, by decide⟩, by decide,
   (reorderCards_effects storesTwoCards.card swapCards .undefined (by decide) (by decide)).1.1,
   by decide⟩

end MiniTrello
